import Mathlib

/-!
Verification of the deepsweep-ai/auditor detection-and-scoring pipeline.

This file gives a shallow embedding, in Lean 4, of the parts of the
TypeScript source that the specification's claims are about:

* `calculateRiskScore` / `getRiskLevel` (src/utils/helpers.ts, current
  asymptotic variant),
* the compliance evaluators `NISTAIRMFChecker`, `ISO42001Checker`,
  `EUAIActChecker`,
* the `PersistentOverridesDetector`, `EncodedInjectionsDetector`,
  `BroadPermissionsDetector` and `RuntimeAdditionsDetector`,
* the `Auditor.audit` detector loop (per-detector error isolation and
  finding-id attachment).

JavaScript `number` arithmetic inside `calculateRiskScore` (`Math.exp`,
`Math.round`) is modelled over the reals with `Real.exp` and `round`;
JavaScript strings are modelled as Lean `String`s, and the handful of
fixed regular expressions used by the detectors are compiled by hand into
executable matchers over lists of characters.
-/

namespace DeepSweep

/-! ## Severities, categories, compliance statuses (src/types/index.ts) -/

inductive Severity where
  | LOW | MEDIUM | HIGH | CRITICAL
deriving DecidableEq, Repr

inductive Category where
  | memory_poisoning | tool_poisoning | compliance
deriving DecidableEq, Repr

inductive ComplianceStatus where
  | PASS | PARTIAL | FAIL
deriving DecidableEq, Repr

/-! ## Risk aggregation (src/utils/helpers.ts, asymptotic variant)

```ts
export function calculateRiskScore(criticalCount, highCount, mediumCount, lowCount) {
  const weighted = criticalCount * 40 + highCount * 20 + mediumCount * 10 + lowCount * 5;
  const threshold = 180;
  const score = 100 * (1 - Math.exp(-weighted / threshold));
  return Math.min(100, Math.round(score));
}
```
`Math.round` rounds half-way cases towards `+∞`, exactly as Mathlib's
`round` (`round x = ⌊x + 1/2⌋`), and `Math.exp` is modelled by `Real.exp`.
-/

noncomputable def calculateRiskScore (criticalCount highCount mediumCount lowCount : ℕ) : ℤ :=
  let weighted : ℕ := criticalCount * 40 + highCount * 20 + mediumCount * 10 + lowCount * 5
  min 100 (round (100 * (1 - Real.exp (-(weighted : ℝ) / 180))))

/-- The superseded linear variant of `calculateRiskScore` still present in
the repository snapshot (plain `Math.min(100, weighted)`); the spec and the
current test suite describe the asymptotic variant above. -/
def calculateRiskScoreLegacy (criticalCount highCount mediumCount lowCount : ℕ) : ℤ :=
  min 100 (criticalCount * 40 + highCount * 20 + mediumCount * 10 + lowCount * 5)

/-- `getRiskLevel` (src/utils/helpers.ts). -/
def getRiskLevel (score : ℤ) : Severity :=
  if score ≥ 80 then .CRITICAL
  else if score ≥ 50 then .HIGH
  else if score ≥ 20 then .MEDIUM
  else .LOW

/-! ## JavaScript-flavoured string helpers

All session content handled by the detectors is ASCII in practice; we model
JS strings as Lean `String`s, `\s` as the ASCII whitespace class, and
`toLowerCase` as `String.toLower`. -/

def isJsSpace (c : Char) : Bool :=
  c = ' ' || c = '\t' || c = '\n' || c = '\r' || c = Char.ofNat 11 || c = Char.ofNat 12

def isWordChar (c : Char) : Bool :=
  c.isAlphanum || c = '_'

def isHexDigit (c : Char) : Bool :=
  c.isDigit || ('a' ≤ c && c ≤ 'f') || ('A' ≤ c && c ≤ 'F')

/-- JS `toLowerCase` on the (ASCII) content the detectors handle, computed
on the character list so that it is kernel-reducible. -/
def jsToLower (s : String) : String := String.mk (s.data.map Char.toLower)

/-- The shared private `truncate(text, maxLength)` helper
(`text.slice(0, maxLength) + '...'` past the cap). -/
def truncate (text : String) (maxLength : ℕ) : String :=
  if text.length ≤ maxLength then text else String.mk (text.data.take maxLength) ++ "..."

/-! ## A tiny matcher for the fixed regular expressions of the detectors

Every regular expression appearing in the detectors is an alternation of
sequences of: literal characters, `\s+`, and `.*`.  We compile each one by
hand into this representation.  `RAtom.dotStar` does not cross line
terminators, matching the semantics of `.` in a JavaScript regex without
the `s` flag. -/

inductive RAtom where
  | chr (c : Char)
  | ws
  | dotStar
deriving DecidableEq, Repr

def isLineTerm (c : Char) : Bool := c = '\n' || c = '\r'

/-- Fuelled matcher kernel: every recursive call strictly decreases
`as.length + l.length`, so fuel `as.length + l.length + 1` never runs out
and the `0`-fuel branch is unreachable.  (Structural recursion on the fuel
keeps the matcher kernel-reducible for concrete evaluation.) -/
def matchAtomsF : ℕ → List RAtom → List Char → Bool
  | 0, _, _ => false
  | _ + 1, [], _ => true
  | _ + 1, .chr _ :: _, [] => false
  | fuel + 1, .chr c :: as, d :: l => c = d && matchAtomsF fuel as l
  | _ + 1, .ws :: _, [] => false
  | fuel + 1, .ws :: as, d :: l =>
      isJsSpace d && (matchAtomsF fuel as l || matchAtomsF fuel (.ws :: as) l)
  | fuel + 1, .dotStar :: as, [] => matchAtomsF fuel as []
  | fuel + 1, .dotStar :: as, d :: l =>
      matchAtomsF fuel as (d :: l) || (!isLineTerm d && matchAtomsF fuel (.dotStar :: as) l)

/-- Does the atom sequence match a prefix of `l` (with arbitrary tail left over)? -/
def matchAtoms (as : List RAtom) (l : List Char) : Bool :=
  matchAtomsF (as.length + l.length + 1) as l

/-- Does the atom sequence match starting at some position of `l`? -/
def searchAtoms (as : List RAtom) : List Char → Bool
  | [] => matchAtoms as []
  | d :: l => matchAtoms as (d :: l) || searchAtoms as l

/-- A compiled regular expression: an alternation of atom sequences, a
case-insensitivity flag, and the display text `RegExp.prototype.toString`
would produce (used in finding details/evidence). -/
structure Pattern where
  alts : List (List RAtom)
  ci : Bool
  display : String
deriving DecidableEq, Repr

/-- `pattern.test(s)`. -/
def patTest (p : Pattern) (s : String) : Bool :=
  let t := if p.ci then jsToLower s else s
  p.alts.any fun seq => searchAtoms seq t.data

/-- Compile a literal string to a sequence of literal atoms. -/
def lit (s : String) : List RAtom := s.data.map RAtom.chr

/-! ## Memory/message items and content resolution

Upstream records are untyped JS values.  The detectors only distinguish:
a plain string; a record with `content` / `text` / `message` fields (each
possibly a string or some other JSON value); and the record's own JSON
serialization as fallback.  Non-string field values and the whole-record
fallback are carried as their `JSON.stringify` image, with an explicit JS
truthiness bit for non-string values. -/

inductive CVal where
  | vstr (s : String)
  | vother (json : String) (truthy : Bool)
deriving DecidableEq, Repr

def CVal.truthy : CVal → Bool
  | .vstr s => !(s == "")
  | .vother _ t => t

def CVal.asString : CVal → String
  | .vstr s => s
  | .vother j _ => j

structure MemRec where
  content : Option CVal := none
  text : Option String := none
  message : Option CVal := none
  json : String := "\x7b\x7d"
deriving DecidableEq, Repr

inductive MemItem where
  | mstr (s : String)
  | mrec (r : MemRec)
deriving DecidableEq, Repr

def extractContentMsg (r : MemRec) : String :=
  match r.message with
  | some cv => if cv.truthy then cv.asString else r.json
  | none => r.json

def extractContentText (r : MemRec) : String :=
  match r.text with
  | some t => if t == "" then extractContentMsg r else t
  | none => extractContentMsg r

/-- The shared private `extractContent(memoryItem)` of the memory detectors
(identical in each class): string itself; else truthy `content` (stringified
when not a string); else truthy `text`; else truthy `message` (stringified
when not a string); else `JSON.stringify` of the record. -/
def extractContent : MemItem → String
  | .mstr s => s
  | .mrec r =>
    match r.content with
    | some cv => if cv.truthy then cv.asString else extractContentText r
    | none => extractContentText r

/-! ## Persistent Overrides detector (src/detectors/memory/persistent-overrides.ts) -/

/-- Helper for `collapseWs`: `inRun` records whether the previous character
was whitespace (so the current run has already produced its space). -/
def collapseWsAux : Bool → List Char → List Char
  | _, [] => []
  | inRun, c :: rest =>
    if isJsSpace c then
      if inRun then collapseWsAux true rest else ' ' :: collapseWsAux true rest
    else c :: collapseWsAux false rest

/-- Replace each maximal run of whitespace by a single space:
`content.replace(/\s+/g, ' ')`. -/
def collapseWs (l : List Char) : List Char := collapseWsAux false l

/-- JS `String.prototype.trim` on ASCII content. -/
def jsTrim (l : List Char) : List Char :=
  ((l.dropWhile isJsSpace).reverse.dropWhile isJsSpace).reverse

/-- `content.toLowerCase().replace(/\s+/g, ' ').trim()`. -/
def normalizeContent (content : String) : String :=
  String.mk (jsTrim (collapseWs (jsToLower content).data))

/-- `Map.get` over an association list (insertion-ordered, keys unique). -/
def amGet (m : List (String × ℕ)) (k : String) : Option ℕ :=
  (m.find? fun p => p.1 == k).map (·.2)

/-- `Map.set` over an association list. -/
def amSet (m : List (String × ℕ)) (k : String) (v : ℕ) : List (String × ℕ) :=
  match m with
  | [] => [(k, v)]
  | p :: rest => if p.1 == k then (k, v) :: rest else p :: amSet rest k v

/-- The loop body of `findDuplicatePersistentInstructions`, with the `seen`
map made explicit. -/
def findDupsGo : List MemItem → List (String × ℕ) → List String
  | [], _ => []
  | item :: rest, seen =>
    let content := extractContent item
    let normalized := normalizeContent content
    if normalized.length > 50 then
      let count := (amGet seen normalized).getD 0
      let seen' := amSet seen normalized (count + 1)
      if count == 1 then truncate content 100 :: findDupsGo rest seen'
      else findDupsGo rest seen'
    else findDupsGo rest seen

/-- `findDuplicatePersistentInstructions(memory)`. -/
def findDuplicatePersistentInstructions (memory : List MemItem) : List String :=
  findDupsGo memory []

/-- The eight `overridePatterns` of the Persistent Overrides detector, in
source order; inner groups `(a|b|c)` are expanded into top-level
alternatives. -/
def overridePatterns : List Pattern :=
  [ ⟨[lit "always" ++ [.ws] ++ lit "respond" ++ [.ws] ++ lit "with",
      lit "always" ++ [.ws] ++ lit "reply" ++ [.ws] ++ lit "with",
      lit "always" ++ [.ws] ++ lit "answer" ++ [.ws] ++ lit "with"], true,
      "/always\\s+(respond|reply|answer)\\s+with/i"⟩,
    ⟨[lit "from" ++ [.ws] ++ lit "now" ++ [.ws] ++ lit "on"], true, "/from\\s+now\\s+on/i"⟩,
    ⟨[lit "permanently" ++ [.ws] ++ lit "change",
      lit "permanently" ++ [.ws] ++ lit "modify",
      lit "permanently" ++ [.ws] ++ lit "set"], true,
      "/permanently\\s+(change|modify|set)/i"⟩,
    ⟨[lit "never" ++ [.ws] ++ lit "forget",
      lit "never" ++ [.ws] ++ lit "remove",
      lit "never" ++ [.ws] ++ lit "delete"], true, "/never\\s+(forget|remove|delete)/i"⟩,
    ⟨[lit "persist" ++ [.ws] ++ lit "this"], true, "/persist\\s+this/i"⟩,
    ⟨[lit "make" ++ [.ws] ++ lit "this" ++ [.ws] ++ lit "permanent"], true,
      "/make\\s+this\\s+permanent/i"⟩,
    ⟨[lit "override" ++ [.ws] ++ lit "default"], true, "/override\\s+default/i"⟩,
    ⟨[lit "replace" ++ [.ws] ++ lit "system" ++ [.ws] ++ lit "prompt"], true,
      "/replace\\s+system\\s+prompt/i"⟩ ]

/-! ## Tool definitions

`ToolDefinition`s are loosely typed upstream.  The embedded `Tool` carries
exactly the fields the two tool detectors read: the name-resolution chain,
the permission-bearing fields (array, string or object), description,
the `JSON.stringify` image of the resolved parameters (when the
`parameters || params || args || function?.parameters` chain is truthy),
the four timestamp candidates, the authorization markers (as JS
truthiness bits) and the tool's own `JSON.stringify` image (used by the
dynamic-tool scan). -/

inductive PermField where
  | undef
  | pstr (s : String)
  | parr (xs : List String)
  | pobj (kvs : List (String × CVal))
deriving DecidableEq, Repr

inductive TsField where
  | undef
  | tnum (n : ℤ)
  | tstr (s : String)
deriving DecidableEq, Repr

def TsField.truthy : TsField → Bool
  | .undef => false
  | .tnum n => !(n == 0)
  | .tstr s => !(s == "")

/-- JS `a || b` over timestamp fields. -/
def jsOrTs (a b : TsField) : TsField := if a.truthy then a else b

structure Tool where
  name : Option String := none
  id : Option String := none
  functionName : Option String := none
  permissions : PermField := .undef
  capabilities : PermField := .undef
  access : PermField := .undef
  description : Option String := none
  desc : Option String := none
  params : Option String := none
  timestamp : TsField := .undef
  created : TsField := .undef
  addedAt : TsField := .undef
  created_at : TsField := .undef
  approved : Bool := false
  authorized : Bool := false
  validated : Bool := false
  verified : Bool := false
  authorization : Bool := false
  metaApproved : Bool := false
  serialized : String := "\x7b\x7d"
deriving DecidableEq, Repr

/-- JS `a || b` where `a` is an optional string field (`""` is falsy). -/
def jsOrStr (a : Option String) (b : String) : String :=
  match a with
  | some s => if s == "" then b else s
  | none => b

/-- `tool.name || tool.id || tool.function?.name || 'unknown'`. -/
def getToolName (t : Tool) : String :=
  jsOrStr t.name (jsOrStr t.id (jsOrStr t.functionName "unknown"))

/-- `tool.description || tool.desc || ''`. -/
def getToolDescription (t : Tool) : String :=
  jsOrStr t.description (jsOrStr t.desc "")

/-! ## Findings -/

/-- `sanitizeTool` result of the Broad Permissions detector. -/
structure BPSan where
  name : String
  description : String
  permissions : PermField
  capabilities : PermField
  access : PermField
deriving DecidableEq, Repr

/-- `sanitizeTool` result of the Runtime Additions detector. -/
structure RTSan where
  name : String
  description : String
  timestamp : TsField
  authorized : Bool
deriving DecidableEq, Repr

/-- The `evidence` payloads of the findings produced by the embedded
detectors, one constructor per finding shape. -/
inductive Evidence where
  | patternContent (pattern content : String)
  | duplicates (ds : List String)
  | encodedDecoded (encoded decoded : String)
  | permMatch (tool permission : String) (matched : List String) (toolConfig : BPSan)
  | excessivePerms (tool : String) (permissionCount : ℕ) (permissions : List String)
      (toolConfig : BPSan)
  | runtimeAdd (tool : String) (timestamp : TsField) (toolConfig : RTSan)
  | dynamicTool (tool : String) (toolConfig : RTSan)
  | noAuth (tool : String) (toolConfig : RTSan)
deriving DecidableEq, Repr

/-- A finding as constructed by a detector, before the impure
`generateFindingId()` call fills in the `id` field. -/
structure FindingCore where
  category : Category
  severity : Severity
  title : String
  description : String
  details : String
  recommendation : String
  evidence : Option Evidence := none
deriving DecidableEq, Repr

/-- A finding with its generated id. -/
structure Finding where
  id : String
  category : Category
  severity : Severity
  title : String
  description : String
  details : String
  recommendation : String
  evidence : Option Evidence := none
deriving DecidableEq, Repr

/-! ## Session -/

/-- The `session.metadata` governance signals consulted by the compliance
checkers, as JS-truthiness bits, plus `metadata.initialTools` (modelled as
present-and-array or absent). -/
structure SessionMeta where
  governance : Bool := false
  policies : Bool := false
  risk_management : Bool := false
  testing : Bool := false
  validation : Bool := false
  audit_history : Bool := false
  monitoring : Bool := false
  alerts : Bool := false
  incident_response : Bool := false
  risk_assessment : Bool := false
  threat_model : Bool := false
  data_governance : Bool := false
  data_policy : Bool := false
  data_classification : Bool := false
  documentation : Bool := false
  explainability : Bool := false
  transparency : Bool := false
  logging : Bool := false
  audit_trail : Bool := false
  incident_management : Bool := false
  incident_plan : Bool := false
  risk_mitigation : Bool := false
  data_quality : Bool := false
  training_data : Bool := false
  technical_documentation : Bool := false
  system_description : Bool := false
  record_keeping : Bool := false
  user_information : Bool := false
  human_oversight : Bool := false
  human_in_the_loop : Bool := false
  review_process : Bool := false
  cybersecurity : Bool := false
  security_measures : Bool := false
  security_controls : Bool := false
  initialTools : Option (List Tool) := none
deriving DecidableEq, Repr

structure Session where
  messages : List MemItem := []
  memory : List MemItem := []
  tools : List Tool := []
  metadata : SessionMeta := {}
deriving DecidableEq, Repr

/-! ## Persistent Overrides detector: `detect` -/

/-- The CRITICAL per-pattern finding of the Persistent Overrides detector. -/
def mkOverrideFinding (pattern : Pattern) (content : String) : FindingCore :=
  { category := .memory_poisoning, severity := .CRITICAL,
    title := "Persistent Override Pattern Detected",
    description := "Memory contains instructions designed to persist across sessions",
    details := "Pattern matched: " ++ pattern.display ++ "\n" ++ "Content: "
      ++ truncate content 200,
    recommendation := "Implement session isolation and memory expiration policies",
    evidence := some (.patternContent pattern.display (truncate content 500)) }

/-- The aggregated HIGH duplicate finding of the Persistent Overrides
detector. -/
def mkDuplicatesFinding (duplicates : List String) : FindingCore :=
  { category := .memory_poisoning, severity := .HIGH,
    title := "Duplicate Persistent Instructions",
    description := "Multiple copies of the same instruction found in memory, indicating poisoning attempt",
    details := "Found " ++ toString duplicates.length ++ " duplicate persistent instructions",
    recommendation := "Implement deduplication and integrity checking for memory storage",
    evidence := some (.duplicates duplicates) }

/-- `PersistentOverridesDetector.detect(session)` (finding id left to the
pipeline). -/
def persistentOverridesDetect (session : Session) : List FindingCore :=
  let patFindings := session.memory.flatMap fun memoryItem =>
    let content := extractContent memoryItem
    overridePatterns.filterMap fun pattern =>
      if patTest pattern content then some (mkOverrideFinding pattern content)
      else none
  let duplicates := findDuplicatePersistentInstructions session.memory
  let dupFindings : List FindingCore :=
    if duplicates.length > 0 then [mkDuplicatesFinding duplicates] else []
  patFindings ++ dupFindings

/-! ## Broad Permissions detector (src/detectors/tools/broad-permissions.ts) -/

structure DangerousPerm where
  pattern : Pattern
  severity : Severity
  permName : String
deriving DecidableEq, Repr

/-- The `DANGEROUS_PERMISSIONS` table, in source order. -/
def DANGEROUS_PERMISSIONS : List DangerousPerm :=
  [ ⟨⟨[lit "file" ++ [.dotStar] ++ lit "write"], true, "/file.*write/i"⟩, .HIGH,
      "File Write Access"⟩,
    ⟨⟨[lit "file" ++ [.dotStar] ++ lit "delete"], true, "/file.*delete/i"⟩, .HIGH,
      "File Delete Access"⟩,
    ⟨⟨[lit "execute", lit "exec", lit "run", lit "spawn"], true, "/execute|exec|run|spawn/i"⟩,
      .CRITICAL, "Code Execution"⟩,
    ⟨⟨[lit "shell", lit "bash", lit "cmd", lit "powershell"], true,
      "/shell|bash|cmd|powershell/i"⟩, .CRITICAL, "Shell Access"⟩,
    ⟨⟨[lit "network", lit "http", lit "fetch", lit "request"], true,
      "/network|http|fetch|request/i"⟩, .MEDIUM, "Network Access"⟩,
    ⟨⟨[lit "database", lit "db", lit "sql"], true, "/database|db|sql/i"⟩, .HIGH,
      "Database Access"⟩,
    ⟨⟨[lit "admin", lit "root", lit "sudo"], true, "/admin|root|sudo/i"⟩, .CRITICAL,
      "Admin Privileges"⟩,
    ⟨⟨[[RAtom.chr '*'], lit "all", lit "everything"], true, "/\\*|all|everything/i"⟩,
      .CRITICAL, "Wildcard Permissions"⟩ ]

/-- `extractPermissions(tool)`: flatten `permissions` / `capabilities` /
`access`, then keyword-scan the description and the serialized parameters. -/
def extractPermissions (t : Tool) : List String :=
  let fromPerms :=
    match t.permissions with
    | .undef => []
    | .pstr s => if s == "" then [] else [s]
    | .parr xs => xs
    | .pobj kvs =>
        kvs.map (·.1) ++ kvs.filterMap fun p =>
          match p.2 with
          | .vstr s => some s
          | .vother _ _ => none
  let fromCaps :=
    match t.capabilities with
    | .parr xs => xs
    | _ => []
  let fromAccess :=
    match t.access with
    | .pstr s => if s == "" then [] else [s]
    | .parr xs => xs
    | _ => []
  let descr := getToolDescription t
  let fromDesc := DANGEROUS_PERMISSIONS.filterMap fun dp =>
    if patTest dp.pattern descr then some ("description:" ++ dp.permName) else none
  let fromParams :=
    match t.params with
    | none => []
    | some paramStr => DANGEROUS_PERMISSIONS.filterMap fun dp =>
        if patTest dp.pattern paramStr then some ("params:" ++ dp.permName) else none
  fromPerms ++ fromCaps ++ fromAccess ++ fromDesc ++ fromParams

/-- `sanitizeTool(tool)` of the Broad Permissions detector. -/
def bpSanitizeTool (t : Tool) : BPSan :=
  ⟨getToolName t, getToolDescription t, t.permissions, t.capabilities, t.access⟩

/-- The per-dangerous-permission finding of the Broad Permissions
detector (severity taken from the table entry). -/
def mkDangerFinding (dp : DangerousPerm) (matchedPerms : List String) (tool : Tool) :
    FindingCore :=
  { category := .tool_poisoning, severity := dp.severity,
    title := "Tool with Dangerous Permission: " ++ dp.permName,
    description := "Tool \"" ++ getToolName tool
      ++ "\" has overly broad permissions that could be exploited",
    details := "Permission: " ++ dp.permName ++ "\n" ++ "Matched: "
      ++ String.intercalate ", " matchedPerms ++ "\n" ++ "Tool: " ++ getToolName tool,
    recommendation := "Implement principle of least privilege and restrict tool permissions to minimum required",
    evidence := some (.permMatch (getToolName tool) dp.permName matchedPerms
      (bpSanitizeTool tool)) }

/-- The MEDIUM excessive-permission-count finding of the Broad Permissions
detector. -/
def mkExcessiveFinding (permissions : List String) (tool : Tool) : FindingCore :=
  { category := .tool_poisoning, severity := .MEDIUM,
    title := "Tool with Excessive Permissions",
    description := "Tool \"" ++ getToolName tool
      ++ "\" has an unusually high number of permissions",
    details := "Tool has " ++ toString permissions.length
      ++ " permissions. This may indicate overly broad access.",
    recommendation := "Review and reduce tool permissions to minimum required",
    evidence := some (.excessivePerms (getToolName tool) permissions.length
      (permissions.take 10) (bpSanitizeTool tool)) }

/-- `BroadPermissionsDetector.detect(session)`. -/
def broadPermissionsDetect (session : Session) : List FindingCore :=
  session.tools.flatMap fun tool =>
    let permissions := extractPermissions tool
    let dangerous := DANGEROUS_PERMISSIONS.filterMap fun dp =>
      let matchedPerms := permissions.filter fun p => patTest dp.pattern p
      if matchedPerms.length > 0 then some (mkDangerFinding dp matchedPerms tool)
      else none
    let excessive : List FindingCore :=
      if permissions.length > 5 then [mkExcessiveFinding permissions tool] else []
    dangerous ++ excessive

/-! ## Encoded Injections detector (src/detectors/memory/encoded-injections.ts)

`findBase64Strings` applies `/[A-Za-z0-9+\/]\x7b20,\x7d=\x7b0,2\x7d/g`:
every maximal run of base64-alphabet characters of length ≥ 20, greedily
extended by up to two `=` signs.  `findURLEncodedStrings` applies
`/(?:%[0-9A-Fa-f]\x7b2\x7d)\x7b3,\x7d/g`: maximal chains of at least three
`%XX` triplets.  `findHexStrings` applies
`/\b[0-9A-Fa-f]\x7b20,\x7d\b/g`: maximal hex runs of length ≥ 20 bounded
by word boundaries.  Each scanner below walks the string once,
accumulating the current candidate run, which is equivalent to the global
leftmost-greedy regex search for these particular patterns. -/

def isB64Char (c : Char) : Bool := c.isAlphanum || c = '+' || c = '/'

def scanB64Aux (runRev : List Char) : List Char → List String
  | [] => if runRev.length ≥ 20 then [String.mk runRev.reverse] else []
  | c :: rest =>
    if isB64Char c then scanB64Aux (c :: runRev) rest
    else if _h : runRev.length ≥ 20 then
      if c = '=' then
        match rest with
        | d :: rest2 =>
          if d = '=' then String.mk (runRev.reverse ++ ['=', '=']) :: scanB64Aux [] rest2
          else String.mk (runRev.reverse ++ ['=']) :: scanB64Aux [] (d :: rest2)
        | [] => [String.mk (runRev.reverse ++ ['='])]
      else String.mk runRev.reverse :: scanB64Aux [] (c :: rest)
    else scanB64Aux [] rest
termination_by l => (l.length, runRev.length)

def findBase64Strings (content : String) : List String := scanB64Aux [] content.data

def hexVal (c : Char) : ℕ :=
  if c.isDigit then c.toNat - 48
  else if 'a' ≤ c && c ≤ 'f' then c.toNat - 97 + 10
  else if 'A' ≤ c && c ≤ 'F' then c.toNat - 65 + 10
  else 0

/-- Number of consecutive `%XX` (hex) triplets at the head of the list. -/
def countTriplets : List Char → ℕ
  | '%' :: a :: b :: rest =>
    if isHexDigit a && isHexDigit b then countTriplets rest + 1 else 0
  | _ => 0

def scanURLAux : List Char → List String
  | [] => []
  | c :: rest =>
    if c = '%' then
      if h : 3 ≤ countTriplets (c :: rest) then
        String.mk ((c :: rest).take (3 * countTriplets (c :: rest)))
          :: scanURLAux ((c :: rest).drop (3 * countTriplets (c :: rest)))
      else scanURLAux rest
    else scanURLAux rest
termination_by l => l.length
decreasing_by
  · simp only [List.length_drop, List.length_cons]
    omega
  · simp
  · simp

def findURLEncodedStrings (content : String) : List String := scanURLAux content.data

/-- Hex-run scanner; `prevWord` tracks whether the previous character was a
word character (for the leading `\b`), `runRev` the current candidate run. -/
def scanHexAux (prevWord : Bool) (runRev : List Char) : List Char → List String
  | [] => if runRev.length ≥ 20 then [String.mk runRev.reverse] else []
  | c :: rest =>
    if isHexDigit c then
      if runRev.isEmpty && prevWord then scanHexAux true [] rest
      else scanHexAux true (c :: runRev) rest
    else
      if runRev.length ≥ 20 && !isWordChar c then
        String.mk runRev.reverse :: scanHexAux (isWordChar c) [] rest
      else scanHexAux (isWordChar c) [] rest

def findHexStrings (content : String) : List String := scanHexAux false [] content.data

/-! ### Decoders

`Buffer.from(m, 'base64')` (Node) never throws: it maps base64-alphabet
characters to 6-bit groups (ignoring padding) and emits 3 bytes per 4
characters, 2 bytes for a 3-character tail, 1 byte for a 2-character tail.
`Buffer.prototype.toString('utf-8')` never throws either: ill-formed
sequences become U+FFFD.  So the `try/catch` around the Base64 and hex
paths never fires, which the `Option` results below make explicit (they
are always `some`).  `decodeURIComponent`, in contrast, throws `URIError`
when the percent-decoded bytes are not well-formed UTF-8; that is the
`none` case of `decodeURIComponentOpt`. -/

def b64Val (c : Char) : Option ℕ :=
  if 'A' ≤ c && c ≤ 'Z' then some (c.toNat - 65)
  else if 'a' ≤ c && c ≤ 'z' then some (c.toNat - 97 + 26)
  else if c.isDigit then some (c.toNat - 48 + 52)
  else if c = '+' then some 62
  else if c = '/' then some 63
  else none

def b64Group : List ℕ → List ℕ
  | a :: b :: c :: d :: rest =>
    (a * 4 + b / 16) :: ((b % 16) * 16 + c / 4) :: ((c % 4) * 64 + d) :: b64Group rest
  | [a, b] => [a * 4 + b / 16]
  | [a, b, c] => [a * 4 + b / 16, (b % 16) * 16 + c / 4]
  | _ => []

def replChar : Char := Char.ofNat 0xFFFD

def isContByte (b : ℕ) : Bool := 0x80 ≤ b && b ≤ 0xBF

/-- WHATWG UTF-8 decoding with U+FFFD replacement (Node's
`toString('utf-8')`). -/
def utf8DecodeReplace : List ℕ → List Char
  | [] => []
  | b :: rest =>
    if b < 0x80 then Char.ofNat b :: utf8DecodeReplace rest
    else if 0xC2 ≤ b && b ≤ 0xDF then
      match rest with
      | c2 :: cr =>
        if isContByte c2 then
          Char.ofNat ((b - 0xC0) * 64 + (c2 - 0x80)) :: utf8DecodeReplace cr
        else replChar :: utf8DecodeReplace (c2 :: cr)
      | [] => [replChar]
    else if 0xE0 ≤ b && b ≤ 0xEF then
      match rest with
      | d2 :: dr =>
        if (if b == 0xE0 then 0xA0 else 0x80) ≤ d2 && d2 ≤ (if b == 0xED then 0x9F else 0xBF) then
          match dr with
          | d3 :: ds =>
            if isContByte d3 then
              Char.ofNat ((b - 0xE0) * 4096 + (d2 - 0x80) * 64 + (d3 - 0x80))
                :: utf8DecodeReplace ds
            else replChar :: utf8DecodeReplace (d3 :: ds)
          | [] => [replChar]
        else replChar :: utf8DecodeReplace (d2 :: dr)
      | [] => [replChar]
    else if 0xF0 ≤ b && b ≤ 0xF4 then
      match rest with
      | e2 :: er =>
        if (if b == 0xF0 then 0x90 else 0x80) ≤ e2 && e2 ≤ (if b == 0xF4 then 0x8F else 0xBF) then
          match er with
          | e3 :: es =>
            if isContByte e3 then
              match es with
              | e4 :: et =>
                if isContByte e4 then
                  Char.ofNat ((b - 0xF0) * 262144 + (e2 - 0x80) * 4096 + (e3 - 0x80) * 64
                      + (e4 - 0x80)) :: utf8DecodeReplace et
                else replChar :: utf8DecodeReplace (e4 :: et)
              | [] => [replChar]
            else replChar :: utf8DecodeReplace (e3 :: es)
          | [] => [replChar]
        else replChar :: utf8DecodeReplace (e2 :: er)
      | [] => [replChar]
    else replChar :: utf8DecodeReplace rest
termination_by l => l.length
decreasing_by all_goals (simp_wf <;> omega)

/-- Strict UTF-8 decoding: `none` on any ill-formed sequence (the
`URIError` path of `decodeURIComponent`). -/
def utf8DecodeStrict : List ℕ → Option (List Char)
  | [] => some []
  | b :: rest =>
    if b < 0x80 then (utf8DecodeStrict rest).map (Char.ofNat b :: ·)
    else if 0xC2 ≤ b && b ≤ 0xDF then
      match rest with
      | b2 :: rest2 =>
        if isContByte b2 then
          (utf8DecodeStrict rest2).map (Char.ofNat ((b - 0xC0) * 64 + (b2 - 0x80)) :: ·)
        else none
      | [] => none
    else if 0xE0 ≤ b && b ≤ 0xEF then
      match rest with
      | b2 :: b3 :: rest3 =>
        if ((if b == 0xE0 then 0xA0 else 0x80) ≤ b2
              && b2 ≤ (if b == 0xED then 0x9F else 0xBF)) && isContByte b3 then
          (utf8DecodeStrict rest3).map
            (Char.ofNat ((b - 0xE0) * 4096 + (b2 - 0x80) * 64 + (b3 - 0x80)) :: ·)
        else none
      | _ => none
    else if 0xF0 ≤ b && b ≤ 0xF4 then
      match rest with
      | b2 :: b3 :: b4 :: rest4 =>
        if ((if b == 0xF0 then 0x90 else 0x80) ≤ b2
              && b2 ≤ (if b == 0xF4 then 0x8F else 0xBF)) && isContByte b3 && isContByte b4 then
          (utf8DecodeStrict rest4).map
            (Char.ofNat ((b - 0xF0) * 262144 + (b2 - 0x80) * 4096 + (b3 - 0x80) * 64
              + (b4 - 0x80)) :: ·)
        else none
      | _ => none
    else none
termination_by l => l.length
decreasing_by all_goals (simp_wf <;> omega)

/-- `Buffer.from(match, 'base64').toString('utf-8')`, wrapped in the
(never-firing) `try/catch` of the detector. -/
def base64DecodeString (s : String) : Option String :=
  some (String.mk (utf8DecodeReplace (b64Group (s.data.filterMap b64Val))))

/-- Bytes of a `%XX%YY...` chain. -/
def pctBytes : List Char → List ℕ
  | '%' :: a :: b :: rest => (hexVal a * 16 + hexVal b) :: pctBytes rest
  | _ => []

/-- `decodeURIComponent(match)` on the `(%XX)+` candidates the URL scanner
produces, wrapped in the detector's `try/catch` (`none` = `URIError`). -/
def decodeURIComponentOpt (s : String) : Option String :=
  (utf8DecodeStrict (pctBytes s.data)).map String.mk

/-- Byte pairs of a hex run (Node drops a trailing unpaired digit). -/
def hexPairs : List Char → List ℕ
  | a :: b :: rest => (hexVal a * 16 + hexVal b) :: hexPairs rest
  | _ => []

/-- `Buffer.from(match, 'hex').toString('utf-8')`, wrapped in the
(never-firing) `try/catch`. -/
def hexDecodeString (s : String) : Option String :=
  some (String.mk (utf8DecodeReplace (hexPairs s.data)))

/-- The `isSuspicious` pattern table, in source order.  The last two
patterns have no `i` flag in the source and are matched case-sensitively. -/
def suspiciousPatterns : List Pattern :=
  [ ⟨[lit "ignore" ++ [.ws] ++ lit "previous"], true, "/ignore\\s+previous/i"⟩,
    ⟨[lit "system" ++ [.ws] ++ lit "prompt"], true, "/system\\s+prompt/i"⟩,
    ⟨[lit "override"], true, "/override/i"⟩,
    ⟨[lit "execute"], true, "/execute/i"⟩,
    ⟨[lit "<script>"], true, "/<script>/i"⟩,
    ⟨[lit "eval("], true, "/eval\\(/i"⟩,
    ⟨[lit "document."], true, "/document\\./i"⟩,
    ⟨[lit "window."], true, "/window\\./i"⟩,
    ⟨[[RAtom.chr '$', RAtom.chr (Char.ofNat 123), RAtom.dotStar, RAtom.chr (Char.ofNat 125)]],
      false, "/\\$\\\x7b.*\\\x7d/"⟩,
    ⟨[[RAtom.chr (Char.ofNat 96), RAtom.dotStar, RAtom.chr (Char.ofNat 96)]], false,
      "/\x60.*\x60/"⟩ ]

/-- `EncodedInjectionsDetector.isSuspicious(text)`. -/
def isSuspicious (text : String) : Bool :=
  suspiciousPatterns.any fun p => patTest p text

/-- The CRITICAL Base64 finding of the Encoded Injections detector. -/
def mkBase64Finding (m decoded : String) : FindingCore :=
  { category := .memory_poisoning, severity := .CRITICAL,
    title := "Base64 Encoded Injection Detected",
    description := "Memory contains Base64 encoded content with suspicious patterns",
    details := "Encoded: " ++ truncate m 100 ++ "\n" ++ "Decoded: " ++ truncate decoded 200,
    recommendation := "Decode and validate all Base64 content before storing in memory",
    evidence := some (.encodedDecoded m (truncate decoded 500)) }

/-- The HIGH URL-encoding finding of the Encoded Injections detector. -/
def mkUrlFinding (m decoded : String) : FindingCore :=
  { category := .memory_poisoning, severity := .HIGH,
    title := "URL Encoded Injection Detected",
    description := "Memory contains URL encoded content with suspicious patterns",
    details := "Encoded: " ++ truncate m 100 ++ "\n" ++ "Decoded: " ++ truncate decoded 200,
    recommendation := "Decode and validate all URL encoded content before storing in memory",
    evidence := some (.encodedDecoded m (truncate decoded 500)) }

/-- The HIGH hex-encoding finding of the Encoded Injections detector. -/
def mkHexFinding (m decoded : String) : FindingCore :=
  { category := .memory_poisoning, severity := .HIGH,
    title := "Hex Encoded Injection Detected",
    description := "Memory contains hex encoded content with suspicious patterns",
    details := "Encoded: " ++ truncate m 100 ++ "\n" ++ "Decoded: " ++ truncate decoded 200,
    recommendation := "Decode and validate all hex encoded content before storing in memory",
    evidence := some (.encodedDecoded m (truncate decoded 500)) }

/-- `EncodedInjectionsDetector.detect(session)`. -/
def encodedInjectionsDetect (session : Session) : List FindingCore :=
  session.memory.flatMap fun memoryItem =>
    let content := extractContent memoryItem
    let b64Findings := (findBase64Strings content).filterMap fun m =>
      match base64DecodeString m with
      | some decoded =>
        if isSuspicious decoded then some (mkBase64Finding m decoded) else none
      | none => none
    let urlFindings := (findURLEncodedStrings content).filterMap fun m =>
      match decodeURIComponentOpt m with
      | some decoded =>
        if isSuspicious decoded then some (mkUrlFinding m decoded) else none
      | none => none
    let hexFindings := (findHexStrings content).filterMap fun m =>
      match hexDecodeString m with
      | some decoded =>
        if isSuspicious decoded then some (mkHexFinding m decoded) else none
      | none => none
    b64Findings ++ urlFindings ++ hexFindings

/-! ## Runtime Additions detector (src/detectors/tools/runtime-additions.ts)

`getTimestamp` parses string timestamps with `new Date(ts).getTime()`;
JS date parsing is runtime behaviour outside the repository, so the
detector is parameterised by an arbitrary parse function
`dateParse : String → Option ℤ` (`none` = `NaN`). -/

/-- `tool.timestamp || tool.created || tool.addedAt || tool.created_at`. -/
def rawTs (t : Tool) : TsField :=
  jsOrTs t.timestamp (jsOrTs t.created (jsOrTs t.addedAt t.created_at))

/-- The `session.tools.filter(tool => tool.timestamp || tool.created ||
tool.addedAt || tool.created_at)` predicate. -/
def hasTsRaw (t : Tool) : Bool :=
  t.timestamp.truthy || t.created.truthy || t.addedAt.truthy || t.created_at.truthy

/-- `getTimestamp(tool)`. -/
def getTimestamp (dateParse : String → Option ℤ) (t : Tool) : Option ℤ :=
  match rawTs t with
  | .undef => none
  | .tnum n => if n == 0 then none else some n
  | .tstr s => if s == "" then none else dateParse s

/-- `hasAuthorizationMetadata(tool)`. -/
def hasAuthorizationMetadata (t : Tool) : Bool :=
  t.approved || t.authorized || t.validated || t.verified || t.authorization || t.metaApproved

/-- `sanitizeTool(tool)` of the Runtime Additions detector. -/
def rtSanitizeTool (t : Tool) : RTSan :=
  ⟨getToolName t, getToolDescription t, rawTs t, hasAuthorizationMetadata t⟩

/-- The code-generation indicator table of `isDynamicTool`, in source
order. -/
def dynamicIndicators : List Pattern :=
  [ ⟨[lit "eval("], true, "/eval\\(/i"⟩,
    ⟨[lit "function("], true, "/Function\\(/i"⟩,
    ⟨[lit "exec("], true, "/exec\\(/i"⟩,
    ⟨[lit "new function"], true, "/new Function/i"⟩,
    ⟨[lit "code" ++ [.dotStar] ++ lit "execute"], true, "/code.*execute/i"⟩,
    ⟨[lit "dynamic" ++ [.dotStar] ++ lit "generate"], true, "/dynamic.*generate/i"⟩ ]

/-- `isDynamicTool(tool)`: the indicators tested against
`JSON.stringify(tool)` (the `serialized` field of the embedded `Tool`). -/
def isDynamicTool (t : Tool) : Bool :=
  dynamicIndicators.any fun p => patTest p t.serialized

/-- Stable insertion of a (name, time) pair: the new element goes after
every strictly earlier element and before equal-time ones coming from
later positions. -/
def insertByTime (x : String × ℤ) : List (String × ℤ) → List (String × ℤ)
  | [] => [x]
  | y :: ys => if y.2 < x.2 then y :: insertByTime x ys else x :: y :: ys

/-- Stable ascending sort by time — extensionally the unique stable sort,
hence the result of `Array.prototype.sort((a, b) => a.time - b.time)`. -/
def sortByTime : List (String × ℤ) → List (String × ℤ)
  | [] => []
  | x :: xs => insertByTime x (sortByTime xs)

/-- `getInitialTools(session)`: the set of initial tool names, as a list
whose membership is the set membership (order/duplication immaterial). -/
def getInitialTools (dateParse : String → Option ℤ) (session : Session) : List String :=
  let fromMeta :=
    match session.metadata.initialTools with
    | some arr => arr.map getToolName
    | none => []
  if fromMeta.length ≠ 0 then fromMeta
  else
    let toolsWithTime :=
      (session.tools.map fun t => (getToolName t, getTimestamp dateParse t)).filterMap
        fun p => match p.2 with
                 | some time => some (p.1, time)
                 | none => none
    let sorted := sortByTime toolsWithTime
    match sorted with
    | [] => []
    | first :: _ => (sorted.filter fun t => t.2 - first.2 < 60000).map (·.1)

/-- `getLaterTools(session, initialTools)`. -/
def getLaterTools (dateParse : String → Option ℤ) (session : Session) : List Tool :=
  let initialTools := getInitialTools dateParse session
  session.tools.filter fun tool => !(initialTools.contains (getToolName tool))

/-- The HIGH runtime-addition finding of the Runtime Additions detector. -/
def mkRuntimeAddFinding (tool : Tool) : FindingCore :=
  { category := .tool_poisoning, severity := .HIGH,
    title := "Tool Added During Runtime",
    description := "Tool \"" ++ getToolName tool
      ++ "\" was added after session initialization without explicit approval",
    details := "This tool was not present at session start, which may indicate injection or manipulation",
    recommendation := "Implement explicit approval workflow for runtime tool additions",
    evidence := some (.runtimeAdd (getToolName tool) (rawTs tool) (rtSanitizeTool tool)) }

/-- The CRITICAL dynamic-tool finding of the Runtime Additions detector. -/
def mkDynamicFinding (tool : Tool) : FindingCore :=
  { category := .tool_poisoning, severity := .CRITICAL,
    title := "Dynamically Generated Tool Detected",
    description := "Tool \"" ++ getToolName tool
      ++ "\" appears to be dynamically generated or uses eval/exec",
    details := "Dynamic tools can be manipulated to execute arbitrary code",
    recommendation := "Only allow pre-approved, static tool definitions",
    evidence := some (.dynamicTool (getToolName tool) (rtSanitizeTool tool)) }

/-- The MEDIUM missing-authorization finding of the Runtime Additions
detector. -/
def mkNoAuthFinding (tool : Tool) : FindingCore :=
  { category := .tool_poisoning, severity := .MEDIUM,
    title := "Tool Without Authorization Metadata",
    description := "Tool \"" ++ getToolName tool
      ++ "\" lacks authorization or validation metadata",
    details := "Tools should have explicit approval/validation metadata to prevent unauthorized additions",
    recommendation := "Add authorization metadata to all tools indicating approval status",
    evidence := some (.noAuth (getToolName tool) (rtSanitizeTool tool)) }

/-- `RuntimeAdditionsDetector.detect(session)`. -/
def runtimeAdditionsDetect (dateParse : String → Option ℤ) (session : Session) :
    List FindingCore :=
  let laterFindings : List FindingCore :=
    if (session.tools.filter hasTsRaw).length > 0 then
      (getLaterTools dateParse session).map mkRuntimeAddFinding
    else []
  let dynamicFindings := session.tools.filterMap fun tool =>
    if isDynamicTool tool then some (mkDynamicFinding tool) else none
  let noAuthFindings := session.tools.filterMap fun tool =>
    if !hasAuthorizationMetadata tool then some (mkNoAuthFinding tool) else none
  laterFindings ++ dynamicFindings ++ noAuthFindings

/-! ## Compliance checkers -/

/-- `NISTAIRMFChecker.checkGovernance`. -/
def nistGovernance (s : Session) : Bool :=
  s.metadata.governance || s.metadata.policies || s.metadata.risk_management

/-- `NISTAIRMFChecker.checkMapping` (`findings.length >= 0`, always true
after a scan, per the source comment). -/
def nistMapping (findings : List Finding) : Bool :=
  decide (0 ≤ findings.length)

/-- `NISTAIRMFChecker.checkMeasurement`. -/
def nistMeasurement (s : Session) : Bool :=
  s.metadata.testing || s.metadata.validation || s.metadata.audit_history

/-- `NISTAIRMFChecker.checkManagement`. -/
def nistManagement (s : Session) : Bool :=
  s.metadata.monitoring || s.metadata.alerts || s.metadata.incident_response

/-- `NISTAIRMFChecker.check(session, findings)` (src/compliance, part of the
registry run by `runComplianceChecks`). -/
def nistCheck (session : Session) (findings : List Finding) : ComplianceStatus :=
  let hasCriticalFindings := findings.any fun f => f.severity == .CRITICAL
  let hasHighFindings := findings.any fun f => f.severity == .HIGH
  if hasCriticalFindings then .FAIL
  else if !nistGovernance session || !nistMapping findings then .FAIL
  else if hasHighFindings || !nistMeasurement session || !nistManagement session then .PARTIAL
  else .PASS

/-- `ISO42001Checker.checkRiskManagement`. -/
def isoRiskManagement (s : Session) : Bool :=
  s.metadata.risk_assessment || s.metadata.risk_management || s.metadata.threat_model

/-- `ISO42001Checker.checkDataGovernance`. -/
def isoDataGovernance (s : Session) : Bool :=
  s.metadata.data_governance || s.metadata.data_policy || s.metadata.data_classification

/-- `ISO42001Checker.checkTransparency`. -/
def isoTransparency (s : Session) : Bool :=
  s.metadata.documentation || s.metadata.explainability || s.metadata.transparency

/-- `ISO42001Checker.checkMonitoring`. -/
def isoMonitoring (s : Session) : Bool :=
  s.metadata.monitoring || s.metadata.logging || s.metadata.audit_trail

/-- `ISO42001Checker.checkIncidentManagement`. -/
def isoIncidentManagement (s : Session) : Bool :=
  s.metadata.incident_response || s.metadata.incident_management || s.metadata.incident_plan

/-- `ISO42001Checker.check(session, findings)`
(src/compliance/iso-42001.ts). -/
def iso42001Check (session : Session) (findings : List Finding) : ComplianceStatus :=
  let hasCriticalFindings := findings.any fun f => f.severity == .CRITICAL
  let hasHighFindings := findings.any fun f => f.severity == .HIGH
  let hasMediumFindings := findings.any fun f => f.severity == .MEDIUM
  let passedChecks :=
    [isoRiskManagement session, isoDataGovernance session, isoTransparency session,
      isoMonitoring session, isoIncidentManagement session].count true
  if hasCriticalFindings then .FAIL
  else if hasHighFindings || passedChecks < 3 then .FAIL
  else if hasMediumFindings || passedChecks < 5 then .PARTIAL
  else .PASS

/-- `EUAIActChecker.checkRiskManagement`. -/
def euRiskManagement (s : Session) : Bool :=
  s.metadata.risk_management || s.metadata.risk_assessment || s.metadata.risk_mitigation

/-- `EUAIActChecker.checkDataGovernance`. -/
def euDataGovernance (s : Session) : Bool :=
  s.metadata.data_governance || s.metadata.data_quality || s.metadata.training_data

/-- `EUAIActChecker.checkDocumentation`. -/
def euDocumentation (s : Session) : Bool :=
  s.metadata.documentation || s.metadata.technical_documentation
    || s.metadata.system_description

/-- `EUAIActChecker.checkRecordKeeping`. -/
def euRecordKeeping (s : Session) : Bool :=
  s.metadata.logging || s.metadata.audit_trail || s.metadata.record_keeping

/-- `EUAIActChecker.checkTransparency`. -/
def euTransparency (s : Session) : Bool :=
  s.metadata.transparency || s.metadata.explainability || s.metadata.user_information

/-- `EUAIActChecker.checkHumanOversight`. -/
def euHumanOversight (s : Session) : Bool :=
  s.metadata.human_oversight || s.metadata.human_in_the_loop || s.metadata.review_process

/-- `EUAIActChecker.checkCybersecurity(session, findings)`. -/
def euCybersecurity (session : Session) (findings : List Finding) : Bool :=
  let hasCriticalSecurity := findings.any fun f =>
    f.severity == .CRITICAL
      && (f.category == .memory_poisoning || f.category == .tool_poisoning)
  if hasCriticalSecurity then false
  else
    session.metadata.cybersecurity || session.metadata.security_measures
      || session.metadata.security_controls

/-- `EUAIActChecker.check(session, findings)`. -/
def euAIActCheck (session : Session) (findings : List Finding) : ComplianceStatus :=
  let hasCriticalFindings := findings.any fun f => f.severity == .CRITICAL
  let hasHighFindings := findings.any fun f => f.severity == .HIGH
  let passedChecks :=
    [euRiskManagement session, euDataGovernance session, euDocumentation session,
      euRecordKeeping session, euTransparency session, euHumanOversight session].count true
  if hasCriticalFindings || !euCybersecurity session findings then .FAIL
  else if hasHighFindings || passedChecks < 4 then .FAIL
  else if passedChecks < 6 then .PARTIAL
  else .PASS

/-! ## The audit pipeline (src/auditor.ts)

`Auditor.audit` runs every registered detector inside a `try/catch`: a
throwing detector contributes nothing and the loop continues.  A detector
is modelled as a function to `Except String (List FindingCore)`
(`.error` = thrown exception).  The only impure ingredient of a finding
is its `generateFindingId()` value, so the pipeline is additionally
parameterised by an id supply `gen : ℕ → String` assigning the id of the
`i`-th finding constructed during the run. -/

structure DetectorE where
  category : Category
  run : Session → Except String (List FindingCore)

/-- The finding-collection loop of `Auditor.audit` (steps 3): per-detector
`try/catch`, error ⇒ empty contribution. -/
def auditFindings (detectors : List DetectorE) (session : Session) : List FindingCore :=
  detectors.flatMap fun d =>
    match d.run session with
    | .ok findings => findings
    | .error _ => []

/-- Attach generated ids to the findings of one run, in construction
order. -/
def attachIds (gen : ℕ → String) (cores : List FindingCore) : List Finding :=
  cores.enum.map fun p =>
    { id := gen p.1, category := p.2.category, severity := p.2.severity,
      title := p.2.title, description := p.2.description, details := p.2.details,
      recommendation := p.2.recommendation, evidence := p.2.evidence }

/-- The finding list of the report produced by one `audit()` run with id
supply `gen`. -/
def auditRunFindings (detectors : List DetectorE) (gen : ℕ → String) (session : Session) :
    List Finding :=
  attachIds gen (auditFindings detectors session)

/-- The id-independent content of a finding, as compared by the spec's
idempotence property. -/
def findingContent (f : Finding) : Category × Severity × String × Option Evidence :=
  (f.category, f.severity, f.title, f.evidence)

/-- The embedded concrete detectors, wrapped as total (never-throwing)
pipeline entries, in registry order (memory detectors before tool
detectors). -/
def embeddedDetectors (dateParse : String → Option ℤ) : List DetectorE :=
  [ ⟨.memory_poisoning, fun s => .ok (persistentOverridesDetect s)⟩,
    ⟨.memory_poisoning, fun s => .ok (encodedInjectionsDetect s)⟩,
    ⟨.tool_poisoning, fun s => .ok (broadPermissionsDetect s)⟩,
    ⟨.tool_poisoning, fun s => .ok (runtimeAdditionsDetect dateParse s)⟩ ]

/-! ## Spec-side definitions and concrete instances used by the claims -/

/-- Restatement of the spec's ISO 42001 rule in its own words, to be
compared with the translated `iso42001Check`: FAIL on any CRITICAL;
otherwise count the present signals among the five groups (each resolved
by presence of its synonymous metadata keys); FAIL on any HIGH or fewer
than 3; PARTIAL on any MEDIUM or fewer than 5; else PASS. -/
def iso42001Spec (session : Session) (findings : List Finding) : ComplianceStatus :=
  let anyCritical := findings.any fun f => f.severity == .CRITICAL
  let anyHigh := findings.any fun f => f.severity == .HIGH
  let anyMedium := findings.any fun f => f.severity == .MEDIUM
  let passed :=
    [session.metadata.risk_assessment || session.metadata.risk_management
        || session.metadata.threat_model,
      session.metadata.data_governance || session.metadata.data_policy
        || session.metadata.data_classification,
      session.metadata.documentation || session.metadata.explainability
        || session.metadata.transparency,
      session.metadata.monitoring || session.metadata.logging || session.metadata.audit_trail,
      session.metadata.incident_response || session.metadata.incident_management
        || session.metadata.incident_plan].count true
  if anyCritical then .FAIL
  else if anyHigh || passed < 3 then .FAIL
  else if anyMedium || passed < 5 then .PARTIAL
  else .PASS

/-- Normalized content of a memory item, as the duplicate scan computes it. -/
def normExtract (it : MemItem) : String := normalizeContent (extractContent it)

/-- The normalized strings longer than 50 characters, in memory order. -/
def longNormals (memory : List MemItem) : List String :=
  (memory.map normExtract).filter fun s => s.length > 50

/-- The count the claim asserts for the HIGH duplicate findings: the number
of distinct normalized strings longer than 50 characters occurring at least
twice in memory. -/
def claimedDupCount (memory : List MemItem) : ℕ :=
  ((longNormals memory).dedup.filter fun n => 2 ≤ (longNormals memory).count n).length

def dupA : String := "aaaaaaaaaaaaaaaaaaaaaaaaaaaaaaaaaaaaaaaaaaaaaaaaaaaaaaaaaaaa"

def dupB : String := "bbbbbbbbbbbbbbbbbbbbbbbbbbbbbbbbbbbbbbbbbbbbbbbbbbbbbbbbbbbb"

/-- A session whose memory holds two distinct duplicated long strings. -/
def cexDupSession : Session :=
  { memory := [.mstr dupA, .mstr dupA, .mstr dupB, .mstr dupB] }

/-- A session with one tool of permissions `["shell", "execute"]`. -/
def cexShellSession : Session :=
  { tools := [{ name := some "shell_tool", permissions := .parr ["shell", "execute"] }] }

/-- A session whose only tool has permissions `["read"]` and nothing else. -/
def cexReadSession : Session :=
  { tools := [{ permissions := .parr ["read"] }] }

/-- A CRITICAL finding used to witness the compliance claims. -/
def cexCriticalFinding : Finding :=
  { id := "finding_0", category := .memory_poisoning, severity := .CRITICAL,
    title := "Recursive/Self-Referencing Instructions Detected", description := "d",
    details := "", recommendation := "" }

/-- A benign finding core used to witness the pipeline claims. -/
def cexCore : FindingCore :=
  { category := .memory_poisoning, severity := .LOW, title := "t", description := "d",
    details := "", recommendation := "" }

/-- A registry with one throwing detector followed by one succeeding one. -/
def cexDetectors : List DetectorE :=
  [ ⟨.memory_poisoning, fun _ => .error "boom"⟩,
    ⟨.tool_poisoning, fun _ => .ok [cexCore]⟩ ]

/-- A date-parse function that fails on every string (all timestamps in the
concrete instances are numeric). -/
def noParse : String → Option ℤ := fun _ => none

/-- Two tools sharing the resolved name `t`: the first carries a numeric
timestamp, the second none at all. -/
def cexRTSession : Session :=
  { tools := [{ name := some "t", timestamp := .tnum 1000 },
              { name := some "t" }] }

/-- Initial tool `a`, late tool `b` (≥ 60 s after `a`), and timestampless
tool `c`. -/
def cexRTSession2 : Session :=
  { tools := [{ name := some "a", timestamp := .tnum 1000 },
              { name := some "b", timestamp := .tnum 70000 },
              { name := some "c" }] }

/-- The `encoded` component of a Base64/URL/hex finding's evidence. -/
def evidenceEncoded : Option Evidence → Option String
  | some (.encodedDecoded enc _) => some enc
  | _ => none

/-- The tool name recorded in a runtime-addition finding's evidence. -/
def evidenceRuntimeTool : Option Evidence → Option String
  | some (.runtimeAdd tn _ _) => some tn
  | _ => none

/-- The Base64 candidates of a content string whose decoding succeeds and
is suspicious — the ones the claim says must each yield a CRITICAL
finding. -/
def base64SuspiciousCandidates (content : String) : List String :=
  (findBase64Strings content).filter fun m =>
    match base64DecodeString m with
    | some decoded => isSuspicious decoded
    | none => false

/-- The `Code Execution` entry of `DANGEROUS_PERMISSIONS`. -/
def dpCodeExecution : DangerousPerm :=
  ⟨⟨[lit "execute", lit "exec", lit "run", lit "spawn"], true, "/execute|exec|run|spawn/i"⟩,
    .CRITICAL, "Code Execution"⟩

/-! ## Theorems -/

/-! ### Auxiliary bounds on `Real.exp` at the rational points the spec's
concrete risk-score examples need.  Each bound comes from the degree-6
Taylor partial sum via `Real.exp_bound`. -/

private lemma sum_range_six (x : ℝ) :
    (∑ i ∈ Finset.range 6, x ^ i / i.factorial) =
      1 + x + x ^ 2 / 2 + x ^ 3 / 6 + x ^ 4 / 24 + x ^ 5 / 120 := by
  simp [Finset.sum_range_succ, Nat.factorial]

private lemma exp_taylor_bounds (x : ℝ) (hx : |x| ≤ 1) :
    (1 + x + x ^ 2 / 2 + x ^ 3 / 6 + x ^ 4 / 24 + x ^ 5 / 120) - |x| ^ 6 * (7 / 4320)
        ≤ Real.exp x ∧
      Real.exp x ≤ (1 + x + x ^ 2 / 2 + x ^ 3 / 6 + x ^ 4 / 24 + x ^ 5 / 120) + |x| ^ 6 * (7 / 4320) := by
  have h := Real.exp_bound hx (n := 6) (by norm_num)
  rw [abs_le, sum_range_six] at h
  norm_num [Nat.factorial] at h
  constructor <;> linarith [h.1, h.2]

private lemma exp_rat_bounds (x lo hi : ℝ) (hx : |x| ≤ 1)
    (hlo : lo ≤ 1 + x + x ^ 2 / 2 + x ^ 3 / 6 + x ^ 4 / 24 + x ^ 5 / 120 - |x| ^ 6 * (7 / 4320))
    (hhi : 1 + x + x ^ 2 / 2 + x ^ 3 / 6 + x ^ 4 / 24 + x ^ 5 / 120 + |x| ^ 6 * (7 / 4320) ≤ hi) :
    lo ≤ Real.exp x ∧ Real.exp x ≤ hi := by
  obtain ⟨h1, h2⟩ := exp_taylor_bounds x hx
  exact ⟨le_trans hlo h1, le_trans h2 hhi⟩

private lemma round_eq_of_bounds {y : ℝ} {n : ℤ} (h1 : (n : ℝ) - 1/2 ≤ y) (h2 : y < (n : ℝ) + 1/2) :
    round y = n := by
  rw [round_eq, Int.floor_eq_iff]
  refine ⟨by linarith, by linarith⟩

private lemma exp_neg_rat_bounds (c lo hi : ℝ) (hc0 : 0 ≤ c) (hc1 : c ≤ 1)
    (hlo : lo ≤ 1 - c + c ^ 2 / 2 - c ^ 3 / 6 + c ^ 4 / 24 - c ^ 5 / 120 - c ^ 6 * (7 / 4320))
    (hhi : 1 - c + c ^ 2 / 2 - c ^ 3 / 6 + c ^ 4 / 24 - c ^ 5 / 120 + c ^ 6 * (7 / 4320) ≤ hi) :
    lo ≤ Real.exp (-c) ∧ Real.exp (-c) ≤ hi := by
  have habs : |(-c)| = c := by rw [abs_neg, abs_of_nonneg hc0]
  obtain ⟨h1, h2⟩ := exp_taylor_bounds (-c) (by rw [habs]; exact hc1)
  rw [habs] at h1 h2
  constructor <;> nlinarith [h1, h2]

/-- If `exp (-(w/180))` lies in `(1 - (n+1/2)/100, 1 - (n-1/2)/100]` then the
asymptotic score rounds to `n`. -/
private lemma riskRound_eq {w : ℝ} {n : ℤ} {lo hi : ℝ}
    (hb : lo ≤ Real.exp (-w / 180) ∧ Real.exp (-w / 180) ≤ hi)
    (h1 : (n : ℝ) - 1/2 ≤ 100 * (1 - hi)) (h2 : 100 * (1 - lo) < (n : ℝ) + 1/2) :
    round (100 * (1 - Real.exp (-w / 180))) = n := by
  exact round_eq_of_bounds (by linarith [hb.2]) (by linarith [hb.1])

private lemma exp_bounds_40 :
    (0.8005 : ℝ) ≤ Real.exp (-(40 : ℝ) / 180) ∧ Real.exp (-(40 : ℝ) / 180) ≤ 0.8009 := by
  rw [show (-(40 : ℝ) / 180) = -(2/9) by norm_num]
  exact exp_neg_rat_bounds (2/9) 0.8005 0.8009 (by norm_num) (by norm_num) (by norm_num) (by norm_num)

private lemma exp_bounds_20 :
    (0.8948 : ℝ) ≤ Real.exp (-(20 : ℝ) / 180) ∧ Real.exp (-(20 : ℝ) / 180) ≤ 0.8949 := by
  rw [show (-(20 : ℝ) / 180) = -(1/9) by norm_num]
  exact exp_neg_rat_bounds (1/9) 0.8948 0.8949 (by norm_num) (by norm_num) (by norm_num) (by norm_num)

private lemma exp_bounds_10 :
    (0.94595 : ℝ) ≤ Real.exp (-(10 : ℝ) / 180) ∧ Real.exp (-(10 : ℝ) / 180) ≤ 0.94597 := by
  rw [show (-(10 : ℝ) / 180) = -(1/18) by norm_num]
  exact exp_neg_rat_bounds (1/18) 0.94595 0.94597 (by norm_num) (by norm_num) (by norm_num)
    (by norm_num)

private lemma exp_bounds_5 :
    (0.97259 : ℝ) ≤ Real.exp (-(5 : ℝ) / 180) ∧ Real.exp (-(5 : ℝ) / 180) ≤ 0.97261 := by
  rw [show (-(5 : ℝ) / 180) = -(1/36) by norm_num]
  exact exp_neg_rat_bounds (1/36) 0.97259 0.97261 (by norm_num) (by norm_num) (by norm_num)
    (by norm_num)

private lemma exp_bounds_75 :
    (0.65922 : ℝ) ≤ Real.exp (-(75 : ℝ) / 180) ∧ Real.exp (-(75 : ℝ) / 180) ≤ 0.65925 := by
  rw [show (-(75 : ℝ) / 180) = -(5/12) by norm_num]
  exact exp_neg_rat_bounds (5/12) 0.65922 0.65925 (by norm_num) (by norm_num) (by norm_num)
    (by norm_num)

private lemma exp_bounds_750 :
    (0.0153 : ℝ) ≤ Real.exp (-(750 : ℝ) / 180) ∧ Real.exp (-(750 : ℝ) / 180) ≤ 0.0156 := by
  have h56 : (0.43364 : ℝ) ≤ Real.exp (-(5/6)) ∧ Real.exp (-(5/6)) ≤ 0.43473 :=
    exp_neg_rat_bounds (5/6) 0.43364 0.43473 (by norm_num) (by norm_num) (by norm_num)
      (by norm_num)
  rw [show (-(750 : ℝ) / 180) = ((5 : ℕ) : ℝ) * (-(5/6)) by push_cast; norm_num,
    Real.exp_nat_mul]
  constructor
  · calc (0.0153 : ℝ) ≤ 0.43364 ^ 5 := by norm_num
    _ ≤ Real.exp (-(5/6)) ^ 5 := pow_le_pow_left₀ (by norm_num) h56.1 5
  · calc Real.exp (-(5/6)) ^ 5 ≤ 0.43473 ^ 5 :=
        pow_le_pow_left₀ (Real.exp_pos _).le h56.2 5
    _ ≤ 0.0156 := by norm_num

private lemma riskScore_core_nonneg (w : ℕ) :
    0 ≤ round (100 * (1 - Real.exp (-(w : ℝ) / 180))) := by
  have hexp : Real.exp (-(w : ℝ) / 180) ≤ 1 := by
    rw [show (1 : ℝ) = Real.exp 0 by rw [Real.exp_zero]]
    apply Real.exp_le_exp.mpr
    have : (0 : ℝ) ≤ (w : ℝ) := Nat.cast_nonneg w
    linarith
  rw [round_eq]
  exact Int.le_floor.mpr (by push_cast; linarith)

private lemma riskScore_core_mono {w w' : ℕ} (h : w ≤ w') :
    round (100 * (1 - Real.exp (-(w : ℝ) / 180))) ≤
      round (100 * (1 - Real.exp (-(w' : ℝ) / 180))) := by
  have hc : (w : ℝ) ≤ (w' : ℝ) := by exact_mod_cast h
  have hexp : Real.exp (-(w' : ℝ) / 180) ≤ Real.exp (-(w : ℝ) / 180) :=
    Real.exp_le_exp.mpr (by linarith)
  rw [round_eq, round_eq]
  exact Int.floor_le_floor (by linarith)

private lemma calculateRiskScore_as_weight (c h m l : ℕ) :
    calculateRiskScore c h m l =
      min 100 (round (100 * (1 - Real.exp (-((c * 40 + h * 20 + m * 10 + l * 5 : ℕ) : ℝ) / 180)))) :=
  rfl

/-- The code's risk score is monotone in the weighted sum. -/
private lemma calculateRiskScore_mono_weight {c h m l c' h' m' l' : ℕ}
    (hw : c * 40 + h * 20 + m * 10 + l * 5 ≤ c' * 40 + h' * 20 + m' * 10 + l' * 5) :
    calculateRiskScore c h m l ≤ calculateRiskScore c' h' m' l' := by
  rw [calculateRiskScore_as_weight, calculateRiskScore_as_weight]
  exact min_le_min le_rfl (riskScore_core_mono hw)

/-- Claim C1: `calculateRiskScore` (current asymptotic variant,
src/utils/helpers.ts) equals, for all non-negative integer severity counts,
`round (100 · (1 − e^(−w/180)))` with `w = 40c + 20h + 10m + 5l`, clamped to
`[0, 100]`, and takes the six concrete values the spec lists. -/
theorem calculateRiskScore_spec :
    (∀ c h m l : ℕ,
        calculateRiskScore c h m l =
          max 0 (min 100
            (round (100 * (1 - Real.exp
              (-(((40 * c + 20 * h + 10 * m + 5 * l : ℕ) : ℝ)) / 180)))))) ∧
      calculateRiskScore 1 0 0 0 = 20 ∧ calculateRiskScore 0 1 0 0 = 11 ∧
      calculateRiskScore 0 0 1 0 = 5 ∧ calculateRiskScore 0 0 0 1 = 3 ∧
      calculateRiskScore 1 1 1 1 = 34 ∧ calculateRiskScore 10 10 10 10 = 98 := by
  refine ⟨fun c h m l => ?_, ?_, ?_, ?_, ?_, ?_, ?_⟩
  · rw [calculateRiskScore_as_weight, show 40 * c + 20 * h + 10 * m + 5 * l
      = c * 40 + h * 20 + m * 10 + l * 5 by ring]
    rw [max_eq_right]
    exact le_min (by norm_num) (riskScore_core_nonneg _)
  · rw [calculateRiskScore_as_weight]
    have h := riskRound_eq (n := 20) exp_bounds_40 (by norm_num) (by norm_num)
    norm_num at h ⊢
    rw [h]; norm_num
  · rw [calculateRiskScore_as_weight]
    have h := riskRound_eq (n := 11) exp_bounds_20 (by norm_num) (by norm_num)
    norm_num at h ⊢
    rw [h]; norm_num
  · rw [calculateRiskScore_as_weight]
    have h := riskRound_eq (n := 5) exp_bounds_10 (by norm_num) (by norm_num)
    norm_num at h ⊢
    rw [h]; norm_num
  · rw [calculateRiskScore_as_weight]
    have h := riskRound_eq (n := 3) exp_bounds_5 (by norm_num) (by norm_num)
    norm_num at h ⊢
    rw [h]; norm_num
  · rw [calculateRiskScore_as_weight]
    have h := riskRound_eq (n := 34) exp_bounds_75 (by norm_num) (by norm_num)
    norm_num at h ⊢
    rw [h]; norm_num
  · rw [calculateRiskScore_as_weight]
    have h := riskRound_eq (n := 98) exp_bounds_750 (by norm_num) (by norm_num)
    norm_num at h ⊢
    rw [h]; norm_num

/-- Claim C2: for all non-negative integer severity counts the risk score lies
in `[0, 100]` and is non-decreasing in each count separately. -/
theorem calculateRiskScore_range_mono (c h m l : ℕ) :
    (0 ≤ calculateRiskScore c h m l ∧ calculateRiskScore c h m l ≤ 100) ∧
      (∀ c', c ≤ c' → calculateRiskScore c h m l ≤ calculateRiskScore c' h m l) ∧
      (∀ h', h ≤ h' → calculateRiskScore c h m l ≤ calculateRiskScore c h' m l) ∧
      (∀ m', m ≤ m' → calculateRiskScore c h m l ≤ calculateRiskScore c h m' l) ∧
      (∀ l', l ≤ l' → calculateRiskScore c h m l ≤ calculateRiskScore c h m l') := by
  refine ⟨⟨?_, ?_⟩, ?_, ?_, ?_, ?_⟩
  · rw [calculateRiskScore_as_weight]
    exact le_min (by norm_num) (riskScore_core_nonneg _)
  · rw [calculateRiskScore_as_weight]
    exact min_le_left _ _
  · exact fun c' hc => calculateRiskScore_mono_weight
      (by have := Nat.mul_le_mul_right 40 hc; omega)
  · exact fun h' hh => calculateRiskScore_mono_weight
      (by have := Nat.mul_le_mul_right 20 hh; omega)
  · exact fun m' hm => calculateRiskScore_mono_weight
      (by have := Nat.mul_le_mul_right 10 hm; omega)
  · exact fun l' hl => calculateRiskScore_mono_weight
      (by have := Nat.mul_le_mul_right 5 hl; omega)

/-- Witness for `calculateRiskScore_range_mono` at concrete counts. -/
theorem calculateRiskScore_range_mono_witness :
    (0 ≤ calculateRiskScore 1 0 0 0 ∧ calculateRiskScore 1 0 0 0 ≤ 100) ∧
      calculateRiskScore 1 0 0 0 ≤ calculateRiskScore 3 0 0 0 := by
  refine ⟨(calculateRiskScore_range_mono 1 0 0 0).1, ?_⟩
  exact (calculateRiskScore_range_mono 1 0 0 0).2.1 3 (by norm_num)

/-- Claim C3: any CRITICAL finding forces the NIST AI RMF and ISO 42001
evaluators to FAIL, and — given a failing cybersecurity sub-check (a
CRITICAL security-category finding, or no
cybersecurity/security_measures/security_controls signal) — the EU AI Act
high-risk evaluator to FAIL as well. -/
theorem critical_forces_compliance_fail (session : Session) (findings : List Finding)
    (hcrit : ∃ f ∈ findings, f.severity = .CRITICAL) :
    nistCheck session findings = .FAIL ∧ iso42001Check session findings = .FAIL ∧
      (((findings.any fun f => f.severity == .CRITICAL
            && (f.category == .memory_poisoning || f.category == .tool_poisoning)) = true ∨
          (session.metadata.cybersecurity || session.metadata.security_measures
            || session.metadata.security_controls) = false) →
        euAIActCheck session findings = .FAIL) := by
  obtain ⟨f, hf, hsev⟩ := hcrit
  have hany : (findings.any fun f => f.severity == .CRITICAL) = true :=
    List.any_eq_true.mpr ⟨f, hf, by simp [hsev]⟩
  refine ⟨?_, ?_, fun _ => ?_⟩
  · simp [nistCheck, hany]
  · simp [iso42001Check, hany]
  · simp [euAIActCheck, hany]

/-- Witness for `critical_forces_compliance_fail` at a concrete session and
finding list. -/
theorem critical_forces_compliance_fail_witness :
    (∃ f ∈ [cexCriticalFinding], f.severity = Severity.CRITICAL) ∧
      nistCheck {} [cexCriticalFinding] = .FAIL ∧
      iso42001Check {} [cexCriticalFinding] = .FAIL ∧
      euAIActCheck {} [cexCriticalFinding] = .FAIL := by
  have h : ∃ f ∈ [cexCriticalFinding], f.severity = Severity.CRITICAL :=
    ⟨cexCriticalFinding, by simp, by decide⟩
  have := critical_forces_compliance_fail {} [cexCriticalFinding] h
  exact ⟨h, this.1, this.2.1, this.2.2 (Or.inr (by decide))⟩

/-- Claim C4: the translated ISO 42001 evaluator coincides with the spec's
rule (FAIL on CRITICAL; count of present signals among the five groups;
FAIL on HIGH or `< 3`; PARTIAL on MEDIUM or `< 5`; else PASS) on every
session and finding list. -/
theorem iso42001_matches_spec (session : Session) (findings : List Finding) :
    iso42001Check session findings = iso42001Spec session findings := rfl

/-- Claim C9: the pipeline's finding content — the (category, severity,
title, evidence) of every finding, in order — is independent of the
generated-id supply: two runs over the same session agree up to ids. -/
theorem audit_content_id_independent (detectors : List DetectorE) (g1 g2 : ℕ → String)
    (session : Session) :
    (auditRunFindings detectors g1 session).map findingContent =
      (auditRunFindings detectors g2 session).map findingContent := by
  have key : ∀ (g : ℕ → String) (cores : List FindingCore),
      (attachIds g cores).map findingContent =
        cores.map fun c => (c.category, c.severity, c.title, c.evidence) := by
    intro g cores
    simp only [attachIds, findingContent, List.map_map]
    have : ∀ (n : ℕ),
        ((List.enumFrom n cores).map fun p =>
          ((p.2.category, p.2.severity, p.2.title, p.2.evidence) :
            Category × Severity × String × Option Evidence)) =
          cores.map fun c => (c.category, c.severity, c.title, c.evidence) := by
      induction cores with
      | nil => intro n; rfl
      | cons c cs ih => intro n; simp [List.enumFrom, ih]
    simpa [List.enum] using this 0
  rw [auditRunFindings, auditRunFindings, key, key]

private lemma auditFindings_eq_join (detectors : List DetectorE) (session : Session) :
    auditFindings detectors session =
      (detectors.filterMap fun d => (d.run session).toOption).flatten := by
  induction detectors with
  | nil => rfl
  | cons d ds ih =>
    simp only [auditFindings, List.flatMap_cons, List.filterMap_cons] at ih ⊢
    cases h : d.run session <;> simp [h, Except.toOption, ih]

/-- Claim C8: if one detector of the registry throws, the audit loop
swallows the exception — the run completes and its finding list equals the
run without that detector, i.e. the concatenation of the findings of all
non-throwing detectors. -/
theorem detector_error_isolated (detectors : List DetectorE) (session : Session)
    (i : ℕ) (hi : i < detectors.length) (msg : String)
    (herr : (detectors.get ⟨i, hi⟩).run session = .error msg) :
    auditFindings detectors session = auditFindings (detectors.eraseIdx i) session ∧
      auditFindings detectors session =
        (detectors.filterMap fun d => (d.run session).toOption).flatten := by
  refine ⟨?_, auditFindings_eq_join detectors session⟩
  induction detectors generalizing i with
  | nil => exact absurd hi (by simp)
  | cons d ds ih =>
    cases i with
    | zero =>
      simp only [List.get] at herr
      simp [auditFindings, List.eraseIdx, herr]
    | succ j =>
      have hj : j < ds.length := by simpa using hi
      have := ih j hj (by simpa using herr)
      simp only [auditFindings, List.eraseIdx, List.flatMap_cons] at this ⊢
      rw [this]

/-- Witness for `detector_error_isolated`: a registry whose first detector
throws. -/
theorem detector_error_isolated_witness :
    (cexDetectors.get ⟨0, by norm_num [cexDetectors]⟩).run {} = .error "boom" ∧
      auditFindings cexDetectors {} = auditFindings (cexDetectors.eraseIdx 0) {} ∧
      auditFindings cexDetectors {} = [cexCore] := by
  have h : (cexDetectors.get ⟨0, by norm_num [cexDetectors]⟩).run {} = .error "boom" := rfl
  refine ⟨h, (detector_error_isolated cexDetectors {} 0 (by norm_num [cexDetectors])
    "boom" h).1, rfl⟩

private lemma b64_block_map (cands : List String) :
    ((cands.filterMap fun m =>
        match base64DecodeString m with
        | some decoded =>
          if isSuspicious decoded then some (mkBase64Finding m decoded) else none
        | none => none).map fun f => evidenceEncoded f.evidence) =
      ((cands.filter fun m =>
        match base64DecodeString m with
        | some decoded => isSuspicious decoded
        | none => false).map some) := by
  induction cands with
  | nil => rfl
  | cons m ms ih =>
    simp only [List.filterMap_cons, List.filter_cons]
    cases h : base64DecodeString m with
    | none => simpa [h] using ih
    | some decoded =>
      by_cases hs : isSuspicious decoded
      · simpa [h, hs, mkBase64Finding, evidenceEncoded] using ih
      · simpa [h, hs] using ih

private lemma b64_block_mem {cands : List String} {f : FindingCore}
    (hf : f ∈ cands.filterMap fun m =>
        match base64DecodeString m with
        | some decoded =>
          if isSuspicious decoded then some (mkBase64Finding m decoded) else none
        | none => none) :
    f.severity = .CRITICAL ∧ f.title = "Base64 Encoded Injection Detected" := by
  obtain ⟨m, _, hm⟩ := List.mem_filterMap.mp hf
  cases h : base64DecodeString m with
  | none => rw [h] at hm; cases hm
  | some decoded =>
    rw [h] at hm
    have hm' : (if isSuspicious decoded then some (mkBase64Finding m decoded) else none)
        = some f := hm
    by_cases hs : isSuspicious decoded
    · rw [if_pos hs] at hm'
      cases hm'
      exact ⟨rfl, rfl⟩
    · rw [if_neg hs] at hm'; cases hm'

private lemma url_block_mem {cands : List String} {f : FindingCore}
    (hf : f ∈ cands.filterMap fun m =>
        match decodeURIComponentOpt m with
        | some decoded => if isSuspicious decoded then some (mkUrlFinding m decoded) else none
        | none => none) :
    f.title = "URL Encoded Injection Detected" := by
  obtain ⟨m, _, hm⟩ := List.mem_filterMap.mp hf
  cases h : decodeURIComponentOpt m with
  | none => rw [h] at hm; cases hm
  | some decoded =>
    rw [h] at hm
    have hm' : (if isSuspicious decoded then some (mkUrlFinding m decoded) else none)
        = some f := hm
    by_cases hs : isSuspicious decoded
    · rw [if_pos hs] at hm'; cases hm'; rfl
    · rw [if_neg hs] at hm'; cases hm'

private lemma hex_block_mem {cands : List String} {f : FindingCore}
    (hf : f ∈ cands.filterMap fun m =>
        match hexDecodeString m with
        | some decoded => if isSuspicious decoded then some (mkHexFinding m decoded) else none
        | none => none) :
    f.title = "Hex Encoded Injection Detected" := by
  obtain ⟨m, _, hm⟩ := List.mem_filterMap.mp hf
  cases h : hexDecodeString m with
  | none => rw [h] at hm; cases hm
  | some decoded =>
    rw [h] at hm
    have hm' : (if isSuspicious decoded then some (mkHexFinding m decoded) else none)
        = some f := hm
    by_cases hs : isSuspicious decoded
    · rw [if_pos hs] at hm'; cases hm'; rfl
    · rw [if_neg hs] at hm'; cases hm'

/-- Claim C7: the Base64-injection findings of the Encoded Injections
detector are exactly, in order, the Base64 candidates whose decoding
succeeds and matches the suspicious pattern set (each finding CRITICAL and
carrying its candidate as evidence); a candidate decoding to unsuspicious
text, or whose decoding fails, contributes nothing — and the detector
never errors (it is a total function). -/
theorem encodedInjections_base64_exact (session : Session) :
    (((encodedInjectionsDetect session).filter fun f =>
        f.title == "Base64 Encoded Injection Detected").map fun f =>
          evidenceEncoded f.evidence) =
      ((session.memory.flatMap fun it =>
        base64SuspiciousCandidates (extractContent it)).map some) ∧
      ∀ f ∈ encodedInjectionsDetect session,
        f.title = "Base64 Encoded Injection Detected" → f.severity = .CRITICAL := by
  constructor
  · simp only [encodedInjectionsDetect, List.filter_flatMap, List.map_flatMap]
    congr 1
    funext it
    simp only [List.filter_append, List.map_append]
    have hurl : (List.filter (fun f => f.title == "Base64 Encoded Injection Detected")
        ((findURLEncodedStrings (extractContent it)).filterMap fun m =>
          match decodeURIComponentOpt m with
          | some decoded =>
            if isSuspicious decoded then some (mkUrlFinding m decoded) else none
          | none => none)) = [] := by
      rw [List.filter_eq_nil_iff]
      intro f hf
      have := url_block_mem hf
      simp [this]
    have hhex : (List.filter (fun f => f.title == "Base64 Encoded Injection Detected")
        ((findHexStrings (extractContent it)).filterMap fun m =>
          match hexDecodeString m with
          | some decoded =>
            if isSuspicious decoded then some (mkHexFinding m decoded) else none
          | none => none)) = [] := by
      rw [List.filter_eq_nil_iff]
      intro f hf
      have := hex_block_mem hf
      simp [this]
    have hb64 : (List.filter (fun f => f.title == "Base64 Encoded Injection Detected")
        ((findBase64Strings (extractContent it)).filterMap fun m =>
          match base64DecodeString m with
          | some decoded =>
            if isSuspicious decoded then some (mkBase64Finding m decoded) else none
          | none => none)) =
        ((findBase64Strings (extractContent it)).filterMap fun m =>
          match base64DecodeString m with
          | some decoded =>
            if isSuspicious decoded then some (mkBase64Finding m decoded) else none
          | none => none) := by
      rw [List.filter_eq_self]
      intro f hf
      simp [(b64_block_mem hf).2]
    rw [hurl, hhex, hb64, b64_block_map]
    simp [base64SuspiciousCandidates]
  · intro f hf htitle
    simp only [encodedInjectionsDetect, List.mem_flatMap] at hf
    obtain ⟨it, _, hmem⟩ := hf
    rcases List.mem_append.mp hmem with hmem' | hmem'
    · rcases List.mem_append.mp hmem' with hb | hu
      · exact (b64_block_mem hb).1
      · exact absurd (htitle ▸ url_block_mem hu) (by decide)
    · exact absurd (htitle ▸ hex_block_mem hmem') (by decide)

private lemma descScan_empty :
    (DANGEROUS_PERMISSIONS.filterMap fun dp =>
      if patTest dp.pattern "" then some ("description:" ++ dp.permName) else none) = [] := by
  decide

/-- Claim C6: a tool with permissions `["shell", "execute"]` always yields
at least one CRITICAL tool_poisoning finding from the Broad Permissions
detector, and a session whose only tool has permissions `["read"]` and no
other permission, capability, access, description or parameter content
yields none at all. -/
theorem broadPermissions_shell_exec_and_read :
    (∀ (session : Session) (tool : Tool), tool ∈ session.tools →
        tool.permissions = .parr ["shell", "execute"] →
        ∃ f ∈ broadPermissionsDetect session,
          f.severity = .CRITICAL ∧ f.category = .tool_poisoning) ∧
      ∀ (session : Session) (tool : Tool), session.tools = [tool] →
        tool.permissions = .parr ["read"] → tool.capabilities = .undef →
        tool.access = .undef → tool.description = none → tool.desc = none →
        tool.params = none →
        broadPermissionsDetect session = [] := by
  constructor
  · intro session tool htool hperm
    have hmem : "execute" ∈ extractPermissions tool := by
      simp [extractPermissions, hperm]
    have hdp : dpCodeExecution ∈ DANGEROUS_PERMISSIONS := by decide
    have hmatched : "execute" ∈ (extractPermissions tool).filter
        fun p => patTest dpCodeExecution.pattern p :=
      List.mem_filter.mpr ⟨hmem, by decide⟩
    have hlen : ((extractPermissions tool).filter
        fun p => patTest dpCodeExecution.pattern p).length > 0 :=
      List.length_pos.mpr (List.ne_nil_of_mem hmatched)
    refine ⟨mkDangerFinding dpCodeExecution
      ((extractPermissions tool).filter fun p => patTest dpCodeExecution.pattern p) tool,
      ?_, rfl, rfl⟩
    simp only [broadPermissionsDetect, List.mem_flatMap]
    refine ⟨tool, htool, List.mem_append_left _ ?_⟩
    exact List.mem_filterMap.mpr ⟨dpCodeExecution, hdp, by rw [if_pos hlen]⟩
  · intro session tool htools hperm hcap hacc hdesc hdesc2 hparams
    have hext : extractPermissions tool = ["read"] := by
      simp [extractPermissions, hperm, hcap, hacc, getToolDescription, hdesc, hdesc2, hparams,
        jsOrStr, descScan_empty]
    simp only [broadPermissionsDetect, htools, List.flatMap_cons, List.flatMap_nil,
      List.append_nil, hext]
    have hd : (DANGEROUS_PERMISSIONS.filterMap fun dp =>
        if ((["read"].filter fun p => patTest dp.pattern p).length > 0) then
          some (mkDangerFinding dp (["read"].filter fun p => patTest dp.pattern p) tool)
        else none) = [] := by
      rw [List.filterMap_eq_nil_iff]
      intro dp hdp
      fin_cases hdp <;> rw [if_neg (by decide)]
    rw [hd]
    simp

/-- Witness for `broadPermissions_shell_exec_and_read` at concrete
sessions. -/
theorem broadPermissions_shell_exec_and_read_witness :
    (∃ f ∈ broadPermissionsDetect cexShellSession,
        f.severity = .CRITICAL ∧ f.category = .tool_poisoning) ∧
      broadPermissionsDetect cexReadSession = [] := by
  constructor
  · exact broadPermissions_shell_exec_and_read.1 cexShellSession
      { name := some "shell_tool", permissions := .parr ["shell", "execute"] }
      (by simp [cexShellSession]) rfl
  · exact broadPermissions_shell_exec_and_read.2 cexReadSession
      { permissions := .parr ["read"] } rfl rfl rfl rfl rfl rfl rfl

private lemma amGet_cons (p : String × ℕ) (rest : List (String × ℕ)) (n : String) :
    amGet (p :: rest) n = if p.1 = n then some p.2 else amGet rest n := by
  by_cases h : p.1 = n
  · simp [amGet, List.find?_cons_of_pos, h]
  · rw [if_neg h]
    simp only [amGet]
    rw [List.find?_cons_of_neg _ (by simp [h])]

private lemma amGet_amSet (seen : List (String × ℕ)) (k : String) (v : ℕ) (n : String) :
    amGet (amSet seen k v) n = if n = k then some v else amGet seen n := by
  induction seen with
  | nil =>
    by_cases h : n = k
    · simp [amSet, amGet_cons, h, amGet]
    · have hkn : ¬ k = n := fun he => h he.symm
      simp [amSet, amGet_cons, hkn, h, amGet]
  | cons p rest ih =>
    by_cases hpk : p.1 = k
    · rw [show amSet (p :: rest) k v = (k, v) :: rest by simp [amSet, hpk]]
      by_cases h : n = k
      · simp [amGet_cons, h]
      · have hkn : ¬ (k, v).1 = n := fun he => h he.symm
        have hpn : ¬ p.1 = n := by rw [hpk]; exact fun he => h he.symm
        rw [amGet_cons, amGet_cons, if_neg hkn, if_neg h, if_neg hpn]
    · rw [show amSet (p :: rest) k v = p :: amSet rest k v by simp [amSet, hpk]]
      rw [amGet_cons, ih, amGet_cons]
      by_cases hpn : p.1 = n
      · have h : ¬ n = k := fun he => hpk (hpn.trans he)
        rw [if_pos hpn, if_neg h, if_pos hpn]
      · by_cases h : n = k
        · rw [if_neg hpn, if_pos h, if_pos h]
        · rw [if_neg hpn, if_neg h, if_neg h, if_neg hpn]

private lemma filter_length_split {l : List String} (hnd : l.Nodup) {a : String} (ha : a ∈ l)
    {p q : String → Bool} (hpq : ∀ x ∈ l, x ≠ a → p x = q x) :
    (l.filter p).length + (if q a then 1 else 0) =
      (l.filter q).length + (if p a then 1 else 0) := by
  induction l with
  | nil => cases ha
  | cons x xs ih =>
    rw [List.nodup_cons] at hnd
    by_cases hxa : x = a
    · subst hxa
      have hfil : xs.filter p = xs.filter q :=
        List.filter_congr fun y hy => hpq y (List.mem_cons_of_mem _ hy)
          (fun hya => hnd.1 (hya ▸ hy))
      simp only [List.filter_cons, hfil]
      by_cases hp : p x <;> by_cases hq : q x <;> simp [hp, hq]
    · have ha' : a ∈ xs := by
        rcases List.mem_cons.mp ha with h | h
        · exact absurd h.symm hxa
        · exact h
      have hx : p x = q x := hpq x (List.mem_cons_self x xs) hxa
      have hih := ih hnd.2 ha' (fun y hy hya => hpq y (List.mem_cons_of_mem _ hy) hya)
      simp only [List.filter_cons, hx]
      by_cases hq : q x <;> simp [hq] <;> omega

private lemma findDupsGo_length (mem : List MemItem) (seen : List (String × ℕ)) :
    (findDupsGo mem seen).length =
      ((longNormals mem).dedup.filter fun n =>
        decide ((amGet seen n).getD 0 ≤ 1 ∧
          2 ≤ (amGet seen n).getD 0 + (longNormals mem).count n)).length := by
  induction mem generalizing seen with
  | nil => simp [findDupsGo, longNormals]
  | cons it rest ih =>
    by_cases hlen : (normalizeContent (extractContent it)).length > 50
    · have hln : longNormals (it :: rest) =
          normalizeContent (extractContent it) :: longNormals rest := by
        simp [longNormals, normExtract, hlen]
      have hstep : findDupsGo (it :: rest) seen =
          (if ((amGet seen (normalizeContent (extractContent it))).getD 0) == 1 then
            truncate (extractContent it) 100 ::
              findDupsGo rest (amSet seen (normalizeContent (extractContent it))
                ((amGet seen (normalizeContent (extractContent it))).getD 0 + 1))
          else findDupsGo rest (amSet seen (normalizeContent (extractContent it))
            ((amGet seen (normalizeContent (extractContent it))).getD 0 + 1))) := by
        simp only [findDupsGo, hlen, if_true]
      rw [hstep, hln]
      generalize hn0 : normalizeContent (extractContent it) = n0 at *
      generalize hcc : (amGet seen n0).getD 0 = c at *
      have hih := ih (amSet seen n0 (c + 1))
      have hget : ∀ n, (amGet (amSet seen n0 (c + 1)) n).getD 0 =
          if n = n0 then c + 1 else (amGet seen n).getD 0 := by
        intro n
        rw [amGet_amSet]
        by_cases h : n = n0 <;> simp [h, hcc]
      have hlenLHS : (if ((c == 1) : Bool) then truncate (extractContent it) 100 ::
            findDupsGo rest (amSet seen n0 (c + 1))
          else findDupsGo rest (amSet seen n0 (c + 1))).length =
          (if c = 1 then 1 else 0) + (findDupsGo rest (amSet seen n0 (c + 1))).length := by
        by_cases h : c = 1
        · simp [h]
          omega
        · simp [h]
      rw [hlenLHS, hih]
      by_cases hmem : n0 ∈ longNormals rest
      · rw [List.dedup_cons_of_mem hmem]
        have hcnt : 1 ≤ (longNormals rest).count n0 := List.count_pos_iff.mpr hmem
        have hsplit := filter_length_split (l := (longNormals rest).dedup)
          (List.nodup_dedup _) (List.mem_dedup.mpr hmem)
          (p := fun n => decide ((amGet seen n).getD 0 ≤ 1 ∧
            2 ≤ (amGet seen n).getD 0 + (n0 :: longNormals rest).count n))
          (q := fun n => decide ((amGet (amSet seen n0 (c + 1)) n).getD 0 ≤ 1 ∧
            2 ≤ (amGet (amSet seen n0 (c + 1)) n).getD 0 + (longNormals rest).count n))
          (fun x hx hxne => by
            simp [hget, hxne, List.count_cons_of_ne hxne])
        beta_reduce at hsplit
        have hQn0 : (decide ((amGet (amSet seen n0 (c + 1)) n0).getD 0 ≤ 1 ∧
            2 ≤ (amGet (amSet seen n0 (c + 1)) n0).getD 0 + (longNormals rest).count n0)) =
            decide (c + 1 ≤ 1 ∧ 2 ≤ c + 1 + (longNormals rest).count n0) := by
          rw [hget n0, if_pos rfl]
        have hPn0 : (decide ((amGet seen n0).getD 0 ≤ 1 ∧
            2 ≤ (amGet seen n0).getD 0 + (n0 :: longNormals rest).count n0)) =
            decide (c ≤ 1 ∧ 2 ≤ c + ((longNormals rest).count n0 + 1)) := by
          rw [hcc, List.count_cons_self]
        rw [hPn0, hQn0] at hsplit
        have et : (if true = true then (1:ℕ) else 0) = 1 := rfl
        rcases show c = 0 ∨ c = 1 ∨ 2 ≤ c by omega with hc | hc | hc
        · subst hc
          have hP : decide ((0:ℕ) ≤ 1 ∧ 2 ≤ 0 + ((longNormals rest).count n0 + 1)) = true := by
            simp only [decide_eq_true_eq]
            omega
          have hQ : decide ((0:ℕ) + 1 ≤ 1 ∧ 2 ≤ 0 + 1 + (longNormals rest).count n0) = true := by
            simp only [decide_eq_true_eq]
            omega
          rw [hP, hQ] at hsplit
          simp only [et] at hsplit
          rw [show (if (0:ℕ) = 1 then (1:ℕ) else 0) = 0 from rfl]
          omega
        · subst hc
          have hP : decide ((1:ℕ) ≤ 1 ∧ 2 ≤ 1 + ((longNormals rest).count n0 + 1)) = true := by
            simp only [decide_eq_true_eq]
            omega
          have hQ : decide ((1:ℕ) + 1 ≤ 1 ∧ 2 ≤ 1 + 1 + (longNormals rest).count n0) = false := by
            simp only [decide_eq_false_iff_not]
            omega
          rw [hP, hQ] at hsplit
          simp at hsplit ⊢
          omega
        · have hP : decide (c ≤ 1 ∧ 2 ≤ c + ((longNormals rest).count n0 + 1)) = false := by
            simp only [decide_eq_false_iff_not]
            omega
          have hQ : decide (c + 1 ≤ 1 ∧ 2 ≤ c + 1 + (longNormals rest).count n0) = false := by
            simp only [decide_eq_false_iff_not]
            omega
          rw [hP, hQ] at hsplit
          simp only [show (if false = true then (1:ℕ) else 0) = 0 from rfl] at hsplit
          rw [if_neg (show ¬ c = 1 by omega)]
          omega
      · rw [List.dedup_cons_of_not_mem hmem]
        have hcnt0 : (longNormals rest).count n0 = 0 := List.count_eq_zero.mpr hmem
        have hfil : ((longNormals rest).dedup.filter fun n =>
            decide ((amGet seen n).getD 0 ≤ 1 ∧
              2 ≤ (amGet seen n).getD 0 + (n0 :: longNormals rest).count n)) =
            ((longNormals rest).dedup.filter fun n =>
              decide ((amGet (amSet seen n0 (c + 1)) n).getD 0 ≤ 1 ∧
                2 ≤ (amGet (amSet seen n0 (c + 1)) n).getD 0 + (longNormals rest).count n)) :=
          List.filter_congr fun x hx => by
            have hxne : x ≠ n0 := fun he => hmem (he ▸ List.mem_dedup.mp hx)
            simp [hget, hxne, List.count_cons_of_ne hxne]
        rw [List.filter_cons, ← hfil]
        have hPn0 : (decide ((amGet seen n0).getD 0 ≤ 1 ∧
            2 ≤ (amGet seen n0).getD 0 + (n0 :: longNormals rest).count n0)) =
            decide (c = 1) := by
          rw [hcc, List.count_cons_self, hcnt0]
          simp only [decide_eq_decide]
          omega
        rw [hPn0]
        by_cases hc1 : c = 1
        · rw [if_pos hc1, if_pos (show decide (c = 1) = true by simp [hc1])]
          simp only [List.length_cons]
          omega
        · rw [if_neg hc1, if_neg (show ¬ decide (c = 1) = true by simp [hc1])]
          omega
    · have hln : longNormals (it :: rest) = longNormals rest := by
        simp [longNormals, normExtract, hlen]
      rw [show findDupsGo (it :: rest) seen = findDupsGo rest seen by
        simp [findDupsGo, hlen], hln]
      exact ih seen

private lemma findDups_length_eq (memory : List MemItem) :
    (findDuplicatePersistentInstructions memory).length = claimedDupCount memory := by
  rw [findDuplicatePersistentInstructions, findDupsGo_length, claimedDupCount]
  congr 1
  apply List.filter_congr
  intro n hn
  simp [amGet]

private lemma persistentOverrides_high_count (session : Session) :
    ((persistentOverridesDetect session).filter fun f => f.severity == .HIGH).length =
      if 0 < (findDuplicatePersistentInstructions session.memory).length then 1 else 0 := by
  simp only [persistentOverridesDetect, List.filter_append, List.length_append]
  have hpat : (List.filter (fun f => f.severity == Severity.HIGH)
      (session.memory.flatMap fun memoryItem => overridePatterns.filterMap fun pattern =>
        if patTest pattern (extractContent memoryItem) then
          some (mkOverrideFinding pattern (extractContent memoryItem)) else none)) = [] := by
    rw [List.filter_eq_nil_iff]
    intro f hf
    simp only [List.mem_flatMap, List.mem_filterMap] at hf
    obtain ⟨it, _, pat, _, hpf⟩ := hf
    by_cases hp : patTest pat (extractContent it)
    · rw [if_pos hp] at hpf
      cases hpf
      simp [mkOverrideFinding]
    · rw [if_neg hp] at hpf
      cases hpf
  rw [hpat]
  by_cases hd : 0 < (findDuplicatePersistentInstructions session.memory).length
  · rw [if_pos hd, if_pos hd]
    simp [mkDuplicatesFinding]
  · rw [if_neg hd, if_neg hd]
    simp

/-- Claim C5, amended: the Persistent Overrides detector records, on the
second occurrence of each distinct normalized string longer than 50
characters, one entry in its duplicates list — whose length therefore
equals the number of distinct duplicated normalized strings — but emits a
single aggregated HIGH finding whenever that list is non-empty, not one
HIGH finding per duplicate. -/
theorem persistentOverrides_duplicates (session : Session) :
    ((persistentOverridesDetect session).filter fun f => f.severity == .HIGH).length =
      (if 0 < (findDuplicatePersistentInstructions session.memory).length then 1 else 0) ∧
    (findDuplicatePersistentInstructions session.memory).length =
      claimedDupCount session.memory :=
  ⟨persistentOverrides_high_count session, findDups_length_eq session.memory⟩

/-- Counterexample to claim C5 as stated: with two distinct duplicated
long strings in memory the detector returns one HIGH duplicate finding,
not two. -/
theorem persistentOverrides_dup_counterexample :
    ¬(((persistentOverridesDetect cexDupSession).filter fun f =>
        f.severity == .HIGH).length = claimedDupCount cexDupSession.memory) ∧
      ((persistentOverridesDetect cexDupSession).filter fun f =>
        f.severity == .HIGH).length = 1 ∧
      claimedDupCount cexDupSession.memory = 2 := by
  refine ⟨by decide, by decide, by decide⟩

/-- The two `calculateRiskScore` variants in the snapshot disagree already
at a single critical finding: the superseded linear one scores 40, the
current asymptotic one 20. -/
theorem riskScore_variants_differ :
    calculateRiskScoreLegacy 1 0 0 0 = 40 ∧ calculateRiskScore 1 0 0 0 = 20 := by
  refine ⟨by norm_num [calculateRiskScoreLegacy], ?_⟩
  rw [calculateRiskScore_as_weight]
  have h := riskRound_eq (n := 20) exp_bounds_40 (by norm_num) (by norm_num)
  norm_num at h ⊢
  rw [h]; norm_num

private lemma mem_insertByTime {x y : String × ℤ} {l : List (String × ℤ)} :
    y ∈ insertByTime x l ↔ y = x ∨ y ∈ l := by
  induction l with
  | nil => simp [insertByTime]
  | cons z zs ih =>
    simp only [insertByTime]
    by_cases h : z.2 < x.2
    · rw [if_pos h]
      simp [ih]
      tauto
    · rw [if_neg h]
      simp [ih]

private lemma mem_sortByTime {y : String × ℤ} {l : List (String × ℤ)} :
    y ∈ sortByTime l ↔ y ∈ l := by
  induction l with
  | nil => simp [sortByTime]
  | cons z zs ih => simp [sortByTime, mem_insertByTime, ih]

private lemma dyn_noauth_no_runtime_title {session : Session} {f : FindingCore}
    (hf : f ∈ (session.tools.filterMap fun tool =>
        if isDynamicTool tool then some (mkDynamicFinding tool) else none) ++
      (session.tools.filterMap fun tool =>
        if !hasAuthorizationMetadata tool then some (mkNoAuthFinding tool) else none)) :
    (f.title == "Tool Added During Runtime") = false := by
  rcases List.mem_append.mp hf with h | h <;>
    obtain ⟨t, _, ht⟩ := List.mem_filterMap.mp h
  · by_cases hd : isDynamicTool t
    · rw [if_pos hd] at ht
      cases ht
      simp [mkDynamicFinding]
    · rw [if_neg hd] at ht
      cases ht
  · by_cases hd : !hasAuthorizationMetadata t
    · rw [if_pos hd] at ht
      cases ht
      simp [mkNoAuthFinding]
    · rw [if_neg hd] at ht
      cases ht

/-- Claim C10, amended: with `metadata.initialTools` absent and at least
one tool carrying a raw timestamp field, the Runtime Additions detector
emits its HIGH "Tool Added During Runtime" findings exactly for the tools
whose resolved name is not among the initial-tool names, and the initial
names all come from tools with a resolvable timestamp.  A tool with no
resolvable timestamp therefore contributes no name to the initial set and
is flagged — unless another tool sharing its resolved name is initial. -/
theorem runtimeAdditions_later_tools (dateParse : String → Option ℤ) (session : Session)
    (hmeta : session.metadata.initialTools = none)
    (hts : 0 < (session.tools.filter hasTsRaw).length) :
    (((runtimeAdditionsDetect dateParse session).filter fun f =>
        f.title == "Tool Added During Runtime").map fun f =>
          evidenceRuntimeTool f.evidence) =
      ((getLaterTools dateParse session).map fun t => some (getToolName t)) ∧
      ∀ nm ∈ getInitialTools dateParse session,
        ∃ t ∈ session.tools, getTimestamp dateParse t ≠ none ∧ getToolName t = nm := by
  constructor
  · simp only [runtimeAdditionsDetect]
    rw [if_pos hts]
    rw [List.append_assoc, List.filter_append]
    have h2 : (List.filter (fun f => f.title == "Tool Added During Runtime")
        ((session.tools.filterMap fun tool =>
          if isDynamicTool tool then some (mkDynamicFinding tool) else none) ++
        (session.tools.filterMap fun tool =>
          if !hasAuthorizationMetadata tool then some (mkNoAuthFinding tool) else none))) =
        [] := by
      rw [List.filter_eq_nil_iff]
      intro f hf
      simp [dyn_noauth_no_runtime_title hf]
    rw [h2, List.append_nil]
    have h1 : (List.filter (fun f => f.title == "Tool Added During Runtime")
        ((getLaterTools dateParse session).map mkRuntimeAddFinding)) =
        (getLaterTools dateParse session).map mkRuntimeAddFinding := by
      rw [List.filter_eq_self]
      intro f hf
      obtain ⟨t, _, ht⟩ := List.mem_map.mp hf
      rw [← ht]
      simp [mkRuntimeAddFinding]
    rw [h1, List.map_map]
    rfl
  · intro nm hnm
    simp only [getInitialTools, hmeta] at hnm
    rw [if_neg (by simp)] at hnm
    rcases hsort : sortByTime ((session.tools.map fun t =>
        (getToolName t, getTimestamp dateParse t)).filterMap
          fun p => match p.2 with
                   | some time => some (p.1, time)
                   | none => none) with hnil | ⟨first, srest⟩
    · rw [hsort] at hnm
      cases hnm
    · rw [hsort] at hnm
      obtain ⟨pair, hpair, hname⟩ := List.mem_map.mp hnm
      have hpair2 : pair ∈ sortByTime ((session.tools.map fun t =>
          (getToolName t, getTimestamp dateParse t)).filterMap
            fun p => match p.2 with
                     | some time => some (p.1, time)
                     | none => none) := by
        rw [hsort]
        exact List.mem_of_mem_filter hpair
      rw [mem_sortByTime] at hpair2
      obtain ⟨q, hq, hq2⟩ := List.mem_filterMap.mp hpair2
      obtain ⟨t, ht, hteq⟩ := List.mem_map.mp hq
      refine ⟨t, ht, ?_, ?_⟩
      · cases hts2 : getTimestamp dateParse t with
        | none =>
          rw [← hteq] at hq2
          rw [hts2] at hq2
          cases hq2
        | some v => simp
      · cases hts2 : getTimestamp dateParse t with
        | none =>
          rw [← hteq] at hq2
          rw [hts2] at hq2
          cases hq2
        | some v =>
          rw [← hteq] at hq2
          rw [hts2] at hq2
          cases hq2
          simpa using hname

/-- Witness for `runtimeAdditions_later_tools`: tool `b` (60 s after `a`)
and timestampless tool `c` are both flagged. -/
theorem runtimeAdditions_later_tools_witness :
    (((runtimeAdditionsDetect noParse cexRTSession2).filter fun f =>
        f.title == "Tool Added During Runtime").map fun f =>
          evidenceRuntimeTool f.evidence) = [some "b", some "c"] := by
  have h := (runtimeAdditions_later_tools noParse cexRTSession2 rfl (by decide)).1
  rw [h]
  decide

/-- Counterexample to claim C10 as stated: with two tools sharing the
resolved name `t` — one timestamped, one with no resolvable timestamp —
the detector emits no "Tool Added During Runtime" finding at all, although
the claim demands one for the timestampless tool. -/
theorem runtimeAdditions_counterexample :
    cexRTSession.metadata.initialTools = none ∧
      0 < (cexRTSession.tools.filter hasTsRaw).length ∧
      (∃ t ∈ cexRTSession.tools, getTimestamp noParse t = none) ∧
      ((runtimeAdditionsDetect noParse cexRTSession).filter fun f =>
        f.title == "Tool Added During Runtime") = [] := by
  refine ⟨rfl, by decide, ⟨{ name := some "t" }, by decide, rfl⟩, by decide⟩

end DeepSweep
